import Mathlib

/-!
# Simple ATM controller: embedding of `atm_controller.cpp`

The C++ objects are embedded as plain Lean data.

* `std::map<string,int>` and `std::unordered_map<int,CardInfo>` are association
  lists read through `mapFind` (first binding of a key) and written in place
  through `mapSet`; no operation of the program inserts or erases a key.
* The `Bank` is only ever reached through the controller's `bank_` pointer, so
  the pointee is stored in the field: `none` is `nullptr`.
* `active_card_` points at an element of `cards_`; it is represented by the key
  of that element.  `account_balance_` points at a balance inside a card's
  `accounts`; it is represented by the card key and the account name.
* `int` values are mathematical integers; the result of `+=` and `-=` has to
  fit the 32-bit range.  An operation whose C++ behaviour is undefined (null
  or dangling dereference, signed overflow) has result `none`.
* Text written to `cout` is not part of the embedding.
-/

namespace ATM

/-! ## Finite maps -/

/-- First value bound to `k` (`find` / `count` / `at` of the C++ maps). -/
def mapFind {κ ν : Type} [DecidableEq κ] (k : κ) : List (κ × ν) → Option ν
  | [] => none
  | (k1, v) :: rest => if k1 = k then some v else mapFind k rest

/-- Overwrite in place the value bound to `k`; a map without `k` is unchanged. -/
def mapSet {κ ν : Type} [DecidableEq κ] (k : κ) (v : ν) : List (κ × ν) → List (κ × ν)
  | [] => []
  | (k1, v1) :: rest => if k1 = k then (k1, v) :: rest else (k1, v1) :: mapSet k v rest

/-! ## `int` -/

def INT_MIN : Int := -2147483648

def INT_MAX : Int := 2147483647

/-- The integer is a value of the 32-bit type `int`. -/
def isInt (x : Int) : Prop := INT_MIN ≤ x ∧ x ≤ INT_MAX

instance (x : Int) : Decidable (isInt x) := by
  unfold isInt; infer_instance

/-- Result of a signed `int` computation: defined only when representable. -/
def checkedInt (x : Int) : Option Int := if isInt x then some x else none

/-! ## `CardInfo` and `Bank` -/

structure CardInfo where
  pin : String
  accounts : List (String × Int)
deriving DecidableEq

structure Bank where
  cards_ : List (Int × CardInfo)
deriving DecidableEq

namespace Bank

/-- `cards_.count(card_num)` converted to `bool`. -/
def cardExists (b : Bank) (card_num : Int) : Bool :=
  (mapFind card_num b.cards_).isSome

/-- `cards_.at(card_num)`; `none` when the key is absent. -/
def cardsAt (b : Bank) (card_num : Int) : Option CardInfo :=
  mapFind card_num b.cards_

/-- `isPinCorrect(card_num, pin, active_card)`: the returned pair is the `bool`
result and the new value of the reference parameter `active_card`. -/
def isPinCorrect (b : Bank) (card_num : Int) (pin : String) (active_card : Option Int) :
    Option (Bool × Option Int) :=
  if b.cardExists card_num then
    (b.cardsAt card_num).map fun ci => (decide (ci.pin = pin), some card_num)
  else
    some (false, active_card)

/-- Balance of account `name` of card `card`, if both exist. -/
def balanceOf (b : Bank) (card : Int) (name : String) : Option Int :=
  (mapFind card b.cards_).bind fun ci => mapFind name ci.accounts

/-- Write `v` through a pointer to the balance of account `name` of card `card`. -/
def setBalance (b : Bank) (card : Int) (name : String) (v : Int) : Bank :=
  match mapFind card b.cards_ with
  | some ci => { cards_ := mapSet card { ci with accounts := mapSet name v ci.accounts } b.cards_ }
  | none => b

end Bank

/-! ## `ATMController` -/

structure ATMController where
  bank_ : Option Bank
  active_card_ : Option Int
  account_balance_ : Option (Int × String)
  card_num_ : Int
  pin_ : String
  has_card_ : Bool
  is_pin_valid_ : Bool
  account_exists_ : Bool
deriving DecidableEq

namespace ATMController

/-- `ATMController(Bank* bank)`: every field has its default member initialiser
and `bank_` is assigned only when `bank` is not null. -/
def construct (bank : Option Bank) : ATMController :=
  { bank_ := match bank with
      | some b => some b
      | none => none
    active_card_ := none
    account_balance_ := none
    card_num_ := -1
    pin_ := ""
    has_card_ := false
    is_pin_valid_ := false
    account_exists_ := false }

/-- `*active_card_`. -/
def activeCard (s : ATMController) : Option CardInfo :=
  match s.bank_, s.active_card_ with
  | some b, some c => b.cardsAt c
  | _, _ => none

/-- `*account_balance_`. -/
def balance (s : ATMController) : Option Int :=
  match s.bank_, s.account_balance_ with
  | some b, some (c, name) => b.balanceOf c name
  | _, _ => none

/-- `*account_balance_ = v`, for a pointer that can be dereferenced. -/
def storeBalance (s : ATMController) (v : Int) : ATMController :=
  match s.bank_, s.account_balance_ with
  | some b, some (c, name) => { s with bank_ := some (b.setBalance c name v) }
  | _, _ => s

def insertCard (s : ATMController) (card_num : Int) : Option ATMController :=
  match s.bank_ with
  | none => none
  | some b =>
    if b.cardExists card_num then
      some { s with card_num_ := card_num, has_card_ := true }
    else
      some s

def removeCard (s : ATMController) : ATMController :=
  if s.has_card_ then
    { s with
      has_card_ := false
      is_pin_valid_ := false
      account_exists_ := false
      account_balance_ := none
      active_card_ := none
      card_num_ := -1 }
  else
    s

def enterPin (s : ATMController) (pin : String) : Option ATMController :=
  if s.has_card_ then
    match s.bank_ with
    | none => none
    | some b =>
      match b.isPinCorrect s.card_num_ pin s.active_card_ with
      | none => none
      | some (true, ac) => some { s with active_card_ := ac, pin_ := pin, is_pin_valid_ := true }
      | some (false, ac) => some { s with active_card_ := ac }
  else
    some s

def selectAccount (s : ATMController) (account_name : String) : Option ATMController :=
  if s.is_pin_valid_ then
    match s.activeCard, s.active_card_ with
    | some ci, some c =>
      match mapFind account_name ci.accounts with
      | some _ => some { s with account_exists_ := true, account_balance_ := some (c, account_name) }
      | none => some s
    | _, _ => none
  else
    some s

def seeBalance (s : ATMController) : Option Int :=
  if s.account_exists_ then
    s.balance
  else
    some (-1)

/-- `withdraw(amount, returned_amount)`: the second component of the result is
the value of the reference parameter `returned_amount` after the call. -/
def withdraw (s : ATMController) (amount : Int) (returned_amount : Int) :
    Option (ATMController × Int) :=
  if s.account_exists_ then
    match s.balance with
    | none => none
    | some bal =>
      if bal < amount then
        some (s, returned_amount)
      else
        match checkedInt (bal - amount) with
        | none => none
        | some v => some (s.storeBalance v, amount)
  else
    some (s, returned_amount)

def deposit (s : ATMController) (amount : Int) : Option ATMController :=
  if s.account_exists_ then
    match s.balance with
    | none => none
    | some bal =>
      match checkedInt (bal + amount) with
      | none => none
      | some v => some (s.storeBalance v)
  else
    some s

end ATMController

/-! ## Sequences of calls -/

/-- One call of the public interface of `ATMController`. -/
inductive Op where
  | insertCard (card_num : Int)
  | removeCard
  | enterPin (pin : String)
  | selectAccount (account_name : String)
  | seeBalance
  | withdraw (amount : Int)
  | deposit (amount : Int)
deriving DecidableEq

open ATMController in
/-- State after one call; the values handed back to the caller are dropped
(`withdraw` is called with a variable holding `0`, as in `main`). -/
def step (s : ATMController) : Op → Option ATMController
  | .insertCard n => s.insertCard n
  | .removeCard => some s.removeCard
  | .enterPin p => s.enterPin p
  | .selectAccount a => s.selectAccount a
  | .seeBalance => s.seeBalance.map fun _ => s
  | .withdraw a => (s.withdraw a 0).map Prod.fst
  | .deposit a => s.deposit a

/-- State after a sequence of calls. -/
def run (s : ATMController) : List Op → Option ATMController
  | [] => some s
  | op :: rest => (step s op).bind fun s1 => run s1 rest

/-! ## The data of `main` -/

def c1 : CardInfo := { pin := "1234", accounts := [("main", 2000), ("second", 150)] }

def c2 : CardInfo := { pin := "9999", accounts := [("main", 10000)] }

def customers : List (Int × CardInfo) := [(123123123, c1), (123456789, c2)]

def bank : Bank := { cards_ := customers }

/-- The controller of `main` right after `selectAccount("second")`. -/
def controller_test : ATMController :=
  { bank_ := some bank
    active_card_ := some 123123123
    account_balance_ := some (123123123, "second")
    card_num_ := 123123123
    pin_ := "1234"
    has_card_ := true
    is_pin_valid_ := true
    account_exists_ := true }

/-- A registry whose single account holds the largest `int`. -/
def bankAtMax : Bank :=
  { cards_ := [(42, { pin := "0000", accounts := [("main", 2147483647)] })] }

/-- Session on `bankAtMax` after `insertCard(42)`, `enterPin("0000")`,
`selectAccount("main")`. -/
def controllerAtMax : ATMController :=
  { bank_ := some bankAtMax
    active_card_ := some 42
    account_balance_ := some (42, "main")
    card_num_ := 42
    pin_ := "0000"
    has_card_ := true
    is_pin_valid_ := true
    account_exists_ := true }

/-- The controller of `main` right after `insertCard(card_num1)`. -/
def controllerCardInserted : ATMController :=
  { bank_ := some bank
    active_card_ := none
    account_balance_ := none
    card_num_ := 123123123
    pin_ := ""
    has_card_ := true
    is_pin_valid_ := false
    account_exists_ := false }

/-- The controller of `main` right after `enterPin("1234")`. -/
def controllerAuthenticated : ATMController :=
  { bank_ := some bank
    active_card_ := some 123123123
    account_balance_ := none
    card_num_ := 123123123
    pin_ := "1234"
    has_card_ := true
    is_pin_valid_ := true
    account_exists_ := false }

/-! ## Predicates on call sequences and registries -/

/-- The sequence `pre`, run from `init`, contains a call `enterPin(p)` that is
followed by no `removeCard` and that was made with a card inserted whose stored
PIN in the registry is `p`. -/
def PinAcceptedSinceRemoval (init : ATMController) (pre : List Op) : Prop :=
  ∃ (pre1 : List Op) (p : String) (pre2 : List Op) (s1 : ATMController) (b : Bank)
    (ci : CardInfo),
    pre = pre1 ++ Op.enterPin p :: pre2 ∧ Op.removeCard ∉ pre2 ∧
      run init pre1 = some s1 ∧ s1.has_card_ = true ∧ s1.bank_ = some b ∧
      b.cardsAt s1.card_num_ = some ci ∧ ci.pin = p

/-- Every balance stored in the registry is non-negative. -/
def Bank.balancesNonneg (b : Bank) : Prop :=
  ∀ e ∈ b.cards_, ∀ a ∈ e.2.accounts, 0 ≤ a.2

instance (b : Bank) : Decidable b.balancesNonneg := by
  unfold Bank.balancesNonneg; infer_instance

/-- Every balance stored in the registry is a value of type `int`. -/
def Bank.balancesInt (b : Bank) : Prop :=
  ∀ e ∈ b.cards_, ∀ a ∈ e.2.accounts, isInt a.2

instance (b : Bank) : Decidable b.balancesInt := by
  unfold Bank.balancesInt; infer_instance

/-- The pointers that the flags guard can be dereferenced: a registry is bound,
its balances are `int` values, PIN-valid comes with `active_card_` pointing at a
card of the registry, and account-selected comes with `account_balance_`
pointing at a balance of the registry. -/
def ATMController.wellFormed (s : ATMController) : Prop :=
  ∃ b, s.bank_ = some b ∧ b.balancesInt ∧
    (s.is_pin_valid_ = true → ∃ c, s.active_card_ = some c ∧ b.cardExists c = true) ∧
    (s.account_exists_ = true →
      ∃ c n, s.account_balance_ = some (c, n) ∧ (b.balanceOf c n).isSome = true)

/-- The pointers read under a flag are bound: PIN-valid comes with a registry
and `active_card_` pointing at one of its cards, account-selected comes with a
registry and `account_balance_` pointing at one of its balances. -/
def ATMController.pointersBound (s : ATMController) : Prop :=
  (s.is_pin_valid_ = true →
      ∃ b c, s.bank_ = some b ∧ s.active_card_ = some c ∧ b.cardExists c = true) ∧
    (s.account_exists_ = true →
      ∃ b c n, s.bank_ = some b ∧ s.account_balance_ = some (c, n) ∧
        (b.balanceOf c n).isSome = true)

/-- The card numbers of the registry, in storage order. -/
def Bank.cardNumbers (b : Bank) : List Int :=
  b.cards_.map Prod.fst

/-- The PIN stored for each card of the registry. -/
def Bank.pins (b : Bank) : List (Int × String) :=
  b.cards_.map fun e => (e.1, e.2.pin)

/-- The account names stored for each card of the registry. -/
def Bank.accountNames (b : Bank) : List (Int × List String) :=
  b.cards_.map fun e => (e.1, e.2.accounts.map Prod.fst)

/-- Some `deposit(a)` of the sequence `ops`, run from `init`, is reached with an
account selected whose balance `bal` has `bal + a` above the largest `int`. -/
def DepositOverflows (init : ATMController) (ops : List Op) : Prop :=
  ∃ (pre : List Op) (a : Int) (rest : List Op) (s : ATMController) (bal : Int),
    ops = pre ++ Op.deposit a :: rest ∧ run init pre = some s ∧
      s.account_exists_ = true ∧ s.balance = some bal ∧ INT_MAX < bal + a

/-- The amount passed to `withdraw` or `deposit` is non-negative (no condition
on the other calls). -/
def Op.amountNonneg : Op → Prop
  | .withdraw a => 0 ≤ a
  | .deposit a => 0 ≤ a
  | _ => True

instance (op : Op) : Decidable op.amountNonneg := by
  cases op <;> unfold Op.amountNonneg <;> infer_instance

/-! ## Lemmas on the finite maps -/

theorem mapFind_mapSet {κ ν : Type} [DecidableEq κ] (k k1 : κ) (v : ν) (m : List (κ × ν)) :
    mapFind k (mapSet k1 v m) = if k = k1 then (mapFind k m).map (fun _ => v) else mapFind k m := by
  induction m with
  | nil => simp [mapSet, mapFind]
  | cons e rest ih =>
    obtain ⟨k2, v2⟩ := e
    by_cases h21 : k2 = k1
    · by_cases hk : k = k1
      · simp [mapSet, mapFind, h21, hk]
      · have hk2 : ¬ k1 = k := fun h => hk h.symm
        simp [mapSet, mapFind, h21, hk, hk2]
    · by_cases hk : k = k1
      · subst hk
        simp [mapSet, mapFind, h21, ih]
      · by_cases h2k : k2 = k
        · simp [mapSet, mapFind, h21, hk, h2k]
        · simp [mapSet, mapFind, h21, hk, h2k, ih]

theorem mapSet_mapSet {κ ν : Type} [DecidableEq κ] (k : κ) (v w : ν) (m : List (κ × ν)) :
    mapSet k w (mapSet k v m) = mapSet k w m := by
  induction m with
  | nil => simp [mapSet]
  | cons e rest ih =>
    obtain ⟨k2, v2⟩ := e
    by_cases h : k2 = k
    · simp [mapSet, h]
    · simp [mapSet, h, ih]

theorem mapSet_of_mapFind {κ ν : Type} [DecidableEq κ] (k : κ) (v : ν) (m : List (κ × ν))
    (h : mapFind k m = some v) : mapSet k v m = m := by
  induction m with
  | nil => simp [mapSet]
  | cons e rest ih =>
    obtain ⟨k2, v2⟩ := e
    by_cases h2 : k2 = k
    · simp [mapFind, h2] at h
      simp [mapSet, h2, h]
    · simp [mapFind, h2] at h
      simp [mapSet, h2, ih h]

theorem mapFind_isSome_iff {κ ν : Type} [DecidableEq κ] (k : κ) (m : List (κ × ν)) :
    (mapFind k m).isSome = true ↔ k ∈ m.map Prod.fst := by
  induction m with
  | nil => simp [mapFind]
  | cons e rest ih =>
    obtain ⟨k2, v2⟩ := e
    by_cases h2 : k2 = k
    · simp [mapFind, h2]
    · have h3 : ¬ k = k2 := fun h => h2 h.symm
      simp [mapFind, h2, h3, ih]

namespace Bank

theorem balanceOf_setBalance (b : Bank) (c c1 : Int) (n n1 : String) (v : Int) :
    (b.setBalance c n v).balanceOf c1 n1 =
      if c1 = c ∧ n1 = n then (b.balanceOf c n).map (fun _ => v) else b.balanceOf c1 n1 := by
  unfold setBalance balanceOf
  cases hc : mapFind c b.cards_ with
  | none =>
    by_cases h : c1 = c ∧ n1 = n
    · obtain ⟨h1, h2⟩ := h
      subst h1 h2
      simp [hc]
    · simp [h]
  | some ci =>
    simp only [mapFind_mapSet]
    by_cases h1 : c1 = c
    · subst h1
      by_cases h2 : n1 = n
      · subst h2
        simp [hc, mapFind_mapSet]
      · simp [hc, mapFind_mapSet, h2]
    · simp [h1]

theorem setBalance_setBalance (b : Bank) (c : Int) (n : String) (v w : Int) :
    (b.setBalance c n v).setBalance c n w = b.setBalance c n w := by
  unfold setBalance
  cases hc : mapFind c b.cards_ with
  | none => simp [hc]
  | some ci => simp [hc, mapFind_mapSet, mapSet_mapSet]

theorem setBalance_of_balanceOf (b : Bank) (c : Int) (n : String) (v : Int)
    (h : b.balanceOf c n = some v) : b.setBalance c n v = b := by
  unfold balanceOf at h
  unfold setBalance
  cases hc : mapFind c b.cards_ with
  | none => rfl
  | some ci =>
    simp [hc] at h
    simp only [mapSet_of_mapFind n v ci.accounts h]
    cases b with
    | mk cards =>
      simp only [Bank.mk.injEq]
      exact mapSet_of_mapFind c ci cards hc

end Bank

namespace ATMController

theorem balance_storeBalance (s : ATMController) (b v : Int) (hb : s.balance = some b) :
    (s.storeBalance v).balance = some v := by
  unfold balance storeBalance at *
  cases hbk : s.bank_ with
  | none => simp [hbk] at hb
  | some bk =>
    cases hp : s.account_balance_ with
    | none => simp [hbk, hp] at hb
    | some p =>
      obtain ⟨c, n⟩ := p
      simp only [hbk, hp] at hb ⊢
      simp [Bank.balanceOf_setBalance, hb]

theorem storeBalance_storeBalance (s : ATMController) (v w : Int) :
    (s.storeBalance v).storeBalance w = s.storeBalance w := by
  unfold storeBalance
  cases hbk : s.bank_ with
  | none => simp [hbk]
  | some bk =>
    cases hp : s.account_balance_ with
    | none => simp [hbk, hp]
    | some p =>
      obtain ⟨c, n⟩ := p
      simp [hbk, hp, Bank.setBalance_setBalance]

theorem storeBalance_of_balance (s : ATMController) (b : Int) (hb : s.balance = some b) :
    s.storeBalance b = s := by
  unfold balance at hb
  unfold storeBalance
  cases hbk : s.bank_ with
  | none => simp [hbk] at hb
  | some bk =>
    cases hp : s.account_balance_ with
    | none => simp [hbk, hp] at hb
    | some p =>
      obtain ⟨c, n⟩ := p
      simp only [hbk, hp] at hb ⊢
      rw [Bank.setBalance_of_balanceOf bk c n b hb]
      cases s
      simp_all

theorem account_exists_storeBalance (s : ATMController) (v : Int) :
    (s.storeBalance v).account_exists_ = s.account_exists_ := by
  unfold storeBalance
  split <;> rfl

end ATMController

/-! ## Withdrawals and deposits on a selected account -/

namespace ATMController

/-- C2: with an account selected whose balance is `b`, a withdrawal of an amount
strictly greater than `b` is a no-op: the whole controller state (registry
included) is returned unchanged and `returned_amount` keeps its value. -/
theorem withdraw_insufficient_noop (s : ATMController) (amount returned_amount b : Int)
    (hsel : s.account_exists_ = true) (hb : s.balance = some b) (hlt : b < amount) :
    s.withdraw amount returned_amount = some (s, returned_amount) := by
  simp [withdraw, hsel, hb, hlt]

theorem withdraw_insufficient_noop_witness :
    controller_test.balance = some 150 ∧
      controller_test.withdraw 200 0 = some (controller_test, 0) :=
  ⟨by decide, withdraw_insufficient_noop controller_test 200 0 150 (by decide) (by decide)
    (by decide)⟩

theorem withdraw_within_balance (s : ATMController) (a returned_amount b : Int)
    (hsel : s.account_exists_ = true) (hb : s.balance = some b) (hbi : isInt b)
    (h0 : 0 ≤ a) (hab : a ≤ b) :
    s.withdraw a returned_amount = some (s.storeBalance (b - a), a) := by
  have hr : isInt (b - a) := by
    unfold isInt INT_MIN INT_MAX at *
    omega
  have hnlt : ¬ b < a := by omega
  simp [withdraw, hsel, hb, hnlt, checkedInt, hr]

/-- C3: with an account selected whose `int` balance is `b`, a withdrawal of `a`
with `0 ≤ a ≤ b` stores `b - a` as the selected balance and sets
`returned_amount` to `a`; `seeBalance` then returns `b - a`. -/
theorem withdraw_ok (s : ATMController) (a returned_amount b : Int)
    (hsel : s.account_exists_ = true) (hb : s.balance = some b) (hbi : isInt b)
    (h0 : 0 ≤ a) (hab : a ≤ b) :
    s.withdraw a returned_amount = some (s.storeBalance (b - a), a) ∧
      (s.storeBalance (b - a)).balance = some (b - a) ∧
      (s.storeBalance (b - a)).seeBalance = some (b - a) := by
  have hbal := balance_storeBalance s b (b - a) hb
  refine ⟨withdraw_within_balance s a returned_amount b hsel hb hbi h0 hab, hbal, ?_⟩
  simp [seeBalance, account_exists_storeBalance, hsel, hbal]

theorem withdraw_ok_witness :
    controller_test.balance = some 150 ∧
      controller_test.withdraw 100 0 = some (controller_test.storeBalance (150 - 100), 100) ∧
      (controller_test.storeBalance (150 - 100)).balance = some (150 - 100) ∧
      (controller_test.storeBalance (150 - 100)).seeBalance = some (150 - 100) :=
  ⟨by decide, withdraw_ok controller_test 100 0 150 (by decide) (by decide) (by decide)
    (by decide) (by decide)⟩

/-- C4 (claim as stated fails): in the session of `main`, on the selected
account with balance 150,
`withdraw(-50, returned_amount)` with `returned_amount = 0` is not rejected, it
raises the balance to 200 and sets `returned_amount` to -50; `deposit(-50)`
is not rejected either, it lowers the balance to 100. -/
theorem negative_amount_not_rejected :
    run (construct (some bank))
        [Op.insertCard 123123123, Op.enterPin "0000", Op.enterPin "1234",
          Op.selectAccount "wrong_name", Op.selectAccount "second"] = some controller_test ∧
      controller_test.account_exists_ = true ∧ controller_test.balance = some 150 ∧
      (controller_test.withdraw (-50) 0).map (fun r => (r.1.balance, r.2)) =
        some (some 200, -50) ∧
      (controller_test.deposit (-50)).map balance = some (some 100) := by
  decide

/-- C4 (amended): with an account selected whose balance is `b`, a negative
amount `a` is not rejected as such.  `withdraw` leaves state and
`returned_amount` unchanged only when `b < a`; when `a ≤ b` and `b - a` fits an
`int` it stores `b - a`, which exceeds `b`, and sets `returned_amount` to `a`.
`deposit` stores `b + a`, which is below `b`, when that fits an `int`. -/
theorem negative_amount_effect (s : ATMController) (a returned_amount b : Int)
    (hsel : s.account_exists_ = true) (hb : s.balance = some b) (ha : a < 0) :
    (b < a → s.withdraw a returned_amount = some (s, returned_amount)) ∧
      (a ≤ b → isInt (b - a) →
        s.withdraw a returned_amount = some (s.storeBalance (b - a), a) ∧
          (s.storeBalance (b - a)).balance = some (b - a) ∧ b < b - a) ∧
      (isInt (b + a) →
        s.deposit a = some (s.storeBalance (b + a)) ∧
          (s.storeBalance (b + a)).balance = some (b + a) ∧ b + a < b) := by
  refine ⟨?_, ?_, ?_⟩
  · intro hlt
    simp [withdraw, hsel, hb, hlt]
  · intro hab hr
    have hnlt : ¬ b < a := by omega
    exact ⟨by simp [withdraw, hsel, hb, hnlt, checkedInt, hr],
      balance_storeBalance s b (b - a) hb, by omega⟩
  · intro hr
    exact ⟨by simp [deposit, hsel, hb, checkedInt, hr],
      balance_storeBalance s b (b + a) hb, by omega⟩

theorem negative_amount_effect_witness :
    controller_test.balance = some 150 ∧
      ((150 : Int) < -50 → controller_test.withdraw (-50) 0 = some (controller_test, 0)) ∧
      ((-50 : Int) ≤ 150 → isInt (150 - -50) →
        controller_test.withdraw (-50) 0 = some (controller_test.storeBalance (150 - -50), -50) ∧
          (controller_test.storeBalance (150 - -50)).balance = some (150 - -50) ∧
          (150 : Int) < 150 - -50) ∧
      (isInt (150 + -50) →
        controller_test.deposit (-50) = some (controller_test.storeBalance (150 + -50)) ∧
          (controller_test.storeBalance (150 + -50)).balance = some (150 + -50) ∧
          (150 : Int) + -50 < 150) :=
  ⟨by decide, negative_amount_effect controller_test (-50) 0 150 (by decide) (by decide)
    (by decide)⟩

/-- C5 (claim as stated fails): in a session that selected an account holding
2147483647, the largest `int`, `deposit(1)` overflows and has no defined
result, so no following `seeBalance` returns 2147483648. -/
theorem deposit_overflow :
    run (construct (some bankAtMax))
        [Op.insertCard 42, Op.enterPin "0000", Op.selectAccount "main"] =
        some controllerAtMax ∧
      controllerAtMax.account_exists_ = true ∧ controllerAtMax.balance = some 2147483647 ∧
      ¬ ∃ s1, controllerAtMax.deposit 1 = some s1 ∧ s1.seeBalance = some (2147483647 + 1) := by
  refine ⟨by decide, by decide, by decide, ?_⟩
  have h : controllerAtMax.deposit 1 = none := by decide
  simp [h]

/-- C5 (amended): with an account selected whose balance is `b` and an amount
`a ≥ 0` such that `b + a` does not exceed the largest `int`, after `deposit(a)`
`seeBalance` returns exactly `b + a`. -/
theorem deposit_ok (s : ATMController) (a b : Int)
    (hsel : s.account_exists_ = true) (hb : s.balance = some b) (hbi : isInt b)
    (h0 : 0 ≤ a) (hmax : b + a ≤ INT_MAX) :
    s.deposit a = some (s.storeBalance (b + a)) ∧
      (s.storeBalance (b + a)).seeBalance = some (b + a) := by
  have hr : isInt (b + a) := by
    unfold isInt INT_MIN INT_MAX at *
    omega
  have hbal := balance_storeBalance s b (b + a) hb
  refine ⟨?_, ?_⟩
  · simp [deposit, hsel, hb, checkedInt, hr]
  · simp [seeBalance, account_exists_storeBalance, hsel, hbal]

theorem deposit_ok_witness :
    controller_test.balance = some 150 ∧
      controller_test.deposit 50 = some (controller_test.storeBalance (150 + 50)) ∧
      (controller_test.storeBalance (150 + 50)).seeBalance = some (150 + 50) :=
  ⟨by decide, deposit_ok controller_test 50 150 (by decide) (by decide) (by decide)
    (by decide) (by decide)⟩

/-- C6 (claim as stated fails): in the session of `main`, on the selected
account with balance 150,
`withdraw(200)` is refused and the following `deposit(200)` is applied, so the
balance ends at 350, not 150. -/
theorem withdraw_deposit_not_roundtrip :
    run (construct (some bank))
        [Op.insertCard 123123123, Op.enterPin "0000", Op.enterPin "1234",
          Op.selectAccount "wrong_name", Op.selectAccount "second"] = some controller_test ∧
      controller_test.account_exists_ = true ∧ controller_test.balance = some 150 ∧
      ((controller_test.withdraw 200 0).bind fun r => r.1.deposit 200).map balance =
        some (some 350) := by
  decide

/-- C6 (amended): with an account selected whose `int` balance is `b` and an
amount `a` with `0 ≤ a ≤ b`, `withdraw(a)` followed by `deposit(a)` restores the
selected balance `b`; the whole controller state is the one before the
withdrawal. -/
theorem withdraw_deposit_roundtrip (s : ATMController) (a returned_amount b : Int)
    (hsel : s.account_exists_ = true) (hb : s.balance = some b) (hbi : isInt b)
    (h0 : 0 ≤ a) (hab : a ≤ b) :
    ∃ s1 s2, s.withdraw a returned_amount = some (s1, a) ∧ s1.deposit a = some s2 ∧
      s2.balance = some b ∧ s2 = s := by
  have hw := withdraw_within_balance s a returned_amount b hsel hb hbi h0 hab
  have hbal := balance_storeBalance s b (b - a) hb
  refine ⟨s.storeBalance (b - a), s, hw, ?_, hb, rfl⟩
  have hr : isInt (b - a + a) := by
    simpa using hbi
  simp only [deposit, account_exists_storeBalance, hsel, hbal, checkedInt, hr, if_true]
  rw [storeBalance_storeBalance]
  simp [storeBalance_of_balance s b hb]

theorem withdraw_deposit_roundtrip_witness :
    controller_test.balance = some 150 ∧
      ∃ s1 s2, controller_test.withdraw 100 0 = some (s1, 100) ∧ s1.deposit 100 = some s2 ∧
        s2.balance = some 150 ∧ s2 = controller_test :=
  ⟨by decide, withdraw_deposit_roundtrip controller_test 100 0 150 (by decide) (by decide)
    (by decide) (by decide) (by decide)⟩

/-! ## Card insertion and PIN entry -/

/-- C8: in the CardInserted state on an existing card whose stored PIN differs
from `p`, `enterPin(p)` only re-points `active_card_`: has-card stays set,
PIN-valid and account-selected stay unset and the registry is untouched.  In
the resulting state `selectAccount`, `withdraw` and `deposit` return the state
unchanged (so no balance moves) and `seeBalance` returns -1. -/
theorem enterPin_wrong (s : ATMController) (b : Bank) (ci : CardInfo) (p : String)
    (hbank : s.bank_ = some b) (hcard : s.has_card_ = true)
    (hpin : s.is_pin_valid_ = false) (hacc : s.account_exists_ = false)
    (hci : b.cardsAt s.card_num_ = some ci) (hne : p ≠ ci.pin) :
    ∃ s1, s.enterPin p = some s1 ∧
      s1 = { s with active_card_ := some s.card_num_ } ∧
      s1.has_card_ = true ∧ s1.is_pin_valid_ = false ∧ s1.account_exists_ = false ∧
      s1.bank_ = some b ∧
      (∀ name, s1.selectAccount name = some s1) ∧
      (∀ a r, s1.withdraw a r = some (s1, r)) ∧
      (∀ a, s1.deposit a = some s1) ∧
      s1.seeBalance = some (-1) := by
  have hex : b.cardExists s.card_num_ = true := by
    unfold Bank.cardExists
    unfold Bank.cardsAt at hci
    simp [hci]
  have hne2 : ¬ ci.pin = p := fun h => hne h.symm
  refine ⟨{ s with active_card_ := some s.card_num_ }, ?_, rfl, hcard, hpin, hacc, hbank,
    ?_, ?_, ?_, ?_⟩
  · simp [enterPin, hcard, hbank, Bank.isPinCorrect, hex, hci, hne2]
  · intro name
    simp [selectAccount, hpin]
  · intro a r
    simp [withdraw, hacc]
  · intro a
    simp [deposit, hacc]
  · simp [seeBalance, hacc]

theorem enterPin_wrong_witness :
    ∃ s1, controllerCardInserted.enterPin "0000" = some s1 ∧
      s1 = { controllerCardInserted with active_card_ := some controllerCardInserted.card_num_ } ∧
      s1.has_card_ = true ∧ s1.is_pin_valid_ = false ∧ s1.account_exists_ = false ∧
      s1.bank_ = some bank ∧
      (∀ name, s1.selectAccount name = some s1) ∧
      (∀ a r, s1.withdraw a r = some (s1, r)) ∧
      (∀ a, s1.deposit a = some s1) ∧
      s1.seeBalance = some (-1) :=
  enterPin_wrong controllerCardInserted bank c1 "0000" (by decide) (by decide) (by decide)
    (by decide) (by decide) (by decide)

/-- C9: on a bound registry `b` and a session in the NoCard state (the three
flags unset), `insertCard(n)` ends with has-card set, card number `n`, PIN-valid
and account-selected unset exactly when `n` is a key of the registry; the only
fields written are the card number and has-card, and when `n` is not a key the
state is returned unchanged and stays NoCard. -/
theorem insertCard_noCard (s : ATMController) (b : Bank) (n : Int)
    (hbank : s.bank_ = some b) (hcard : s.has_card_ = false)
    (hpin : s.is_pin_valid_ = false) (hacc : s.account_exists_ = false) :
    ∃ s1, s.insertCard n = some s1 ∧
      ((s1.has_card_ = true ∧ s1.card_num_ = n ∧ s1.is_pin_valid_ = false ∧
          s1.account_exists_ = false) ↔ n ∈ b.cards_.map Prod.fst) ∧
      (n ∈ b.cards_.map Prod.fst → s1 = { s with card_num_ := n, has_card_ := true }) ∧
      (n ∉ b.cards_.map Prod.fst → s1 = s ∧ s1.has_card_ = false) := by
  by_cases hmem : n ∈ b.cards_.map Prod.fst
  · have hex : b.cardExists n = true := (mapFind_isSome_iff n b.cards_).mpr hmem
    refine ⟨{ s with card_num_ := n, has_card_ := true }, ?_, ?_, ?_, ?_⟩
    · simp [insertCard, hbank, hex]
    · simp [hpin, hacc, hmem]
    · intro _
      rfl
    · intro h
      exact absurd hmem h
  · have hex : b.cardExists n = false := by
      cases h : b.cardExists n with
      | false => rfl
      | true => exact absurd ((mapFind_isSome_iff n b.cards_).mp h) hmem
    refine ⟨s, ?_, ?_, ?_, ?_⟩
    · simp [insertCard, hbank, hex]
    · simp [hcard, hmem]
    · intro h
      exact absurd h hmem
    · intro _
      exact ⟨rfl, hcard⟩

theorem insertCard_noCard_witness :
    ∃ s1, (construct (some bank)).insertCard 123123123 = some s1 ∧
      ((s1.has_card_ = true ∧ s1.card_num_ = 123123123 ∧ s1.is_pin_valid_ = false ∧
          s1.account_exists_ = false) ↔ (123123123 : Int) ∈ bank.cards_.map Prod.fst) ∧
      ((123123123 : Int) ∈ bank.cards_.map Prod.fst →
        s1 = { construct (some bank) with card_num_ := 123123123, has_card_ := true }) ∧
      ((123123123 : Int) ∉ bank.cards_.map Prod.fst →
        s1 = construct (some bank) ∧ s1.has_card_ = false) :=
  insertCard_noCard (construct (some bank)) bank 123123123 (by decide) (by decide) (by decide)
    (by decide)

/-- C10 (the code at the failing input): in the session of `main`, with card
123123123 inserted, its PIN validated and account "second" selected,
`insertCard(123456789)` is not ignored: it overwrites the bound card number and
leaves every other field, PIN-valid and the pointers into card 123123123
included, as it was. -/
theorem insertCard_rebinds :
    run (construct (some bank))
        [Op.insertCard 123123123, Op.enterPin "0000", Op.enterPin "1234",
          Op.selectAccount "wrong_name", Op.selectAccount "second"] = some controller_test ∧
      controller_test.has_card_ = true ∧
      controller_test.insertCard 123456789 =
        some { controller_test with card_num_ := 123456789 } ∧
      controller_test.insertCard 123456789 ≠ some controller_test ∧
      (controller_test.insertCard 123456789).map (fun s1 => s1.card_num_) = some 123456789 ∧
      (controller_test.insertCard 123456789).map (fun s1 => s1.is_pin_valid_) = some true ∧
      (controller_test.insertCard 123456789).map (fun s1 => s1.active_card_) =
        some (some 123123123) := by
  decide

end ATMController

/-! ## Call sequences -/

theorem run_append (s : ATMController) (l1 l2 : List Op) :
    run s (l1 ++ l2) = (run s l1).bind fun s1 => run s1 l2 := by
  induction l1 generalizing s with
  | nil => simp [run]
  | cons op rest ih =>
    simp only [List.cons_append, run]
    cases step s op with
    | none => simp
    | some s1 => simp [ih]

theorem run_snoc (s : ATMController) (l : List Op) (op : Op) :
    run s (l ++ [op]) = (run s l).bind fun s1 => step s1 op := by
  rw [run_append]
  cases run s l with
  | none => simp
  | some s1 =>
    simp only [Option.some_bind, run]
    cases step s1 op <;> simp

theorem pinAccepted_snoc (init : ATMController) (pre : List Op) (op : Op)
    (h : PinAcceptedSinceRemoval init pre) (hop : op ≠ Op.removeCard) :
    PinAcceptedSinceRemoval init (pre ++ [op]) := by
  obtain ⟨pre1, p, pre2, s1, b, ci, hpre, hno, hrun, hcard, hbank, hci, hp⟩ := h
  refine ⟨pre1, p, pre2 ++ [op], s1, b, ci, ?_, ?_, hrun, hcard, hbank, hci, hp⟩
  · simp [hpre]
  · intro hmem
    rcases List.mem_append.mp hmem with h1 | h1
    · exact hno h1
    · simp at h1
      exact hop h1.symm

/-- The flags after any sequence of calls from a state without PIN-valid and
account-selected: account-selected needs PIN-valid, and PIN-valid needs a card
and an accepted PIN since the last `removeCard`. -/
theorem flags_inv (init : ATMController) (hp0 : init.is_pin_valid_ = false)
    (ha0 : init.account_exists_ = false) (pre : List Op) :
    ∀ s, run init pre = some s →
      (s.account_exists_ = true → s.is_pin_valid_ = true) ∧
      (s.is_pin_valid_ = true → s.has_card_ = true ∧ PinAcceptedSinceRemoval init pre) := by
  induction pre using List.reverseRecOn with
  | nil =>
    intro s hs
    simp only [run, Option.some.injEq] at hs
    subst hs
    simp [hp0, ha0]
  | append_singleton l op ih =>
    intro s hs
    rw [run_snoc] at hs
    cases hl : run init l with
    | none => simp [hl] at hs
    | some s0 =>
      simp only [hl, Option.some_bind] at hs
      obtain ⟨ih1, ih2⟩ := ih s0 hl
      cases op with
      | insertCard n =>
        simp only [step, ATMController.insertCard] at hs
        cases hb : s0.bank_ with
        | none => simp [hb] at hs
        | some b =>
          simp only [hb] at hs
          split at hs <;> simp only [Option.some.injEq] at hs <;> subst hs
          · exact ⟨ih1, fun h => ⟨rfl, pinAccepted_snoc init l _ (ih2 h).2 (by simp)⟩⟩
          · exact ⟨ih1, fun h => ⟨(ih2 h).1, pinAccepted_snoc init l _ (ih2 h).2 (by simp)⟩⟩
      | removeCard =>
        simp only [step, ATMController.removeCard, Option.some.injEq] at hs
        split at hs <;> subst hs
        · simp
        · rename_i hc
          refine ⟨ih1, fun h => ?_⟩
          exact absurd (ih2 h).1 hc
      | enterPin p =>
        simp only [step, ATMController.enterPin] at hs
        by_cases hc : s0.has_card_ = true
        · rw [if_pos hc] at hs
          cases hb : s0.bank_ with
          | none => simp [hb] at hs
          | some b =>
            simp only [hb, Bank.isPinCorrect] at hs
            by_cases hex : b.cardExists s0.card_num_ = true
            · rw [if_pos hex] at hs
              cases hci : b.cardsAt s0.card_num_ with
              | none => simp [hci] at hs
              | some ci =>
                simp only [hci, Option.map_some'] at hs
                by_cases hpin : ci.pin = p
                · simp only [hpin, decide_True, Option.some.injEq] at hs
                  subst hs
                  refine ⟨fun _ => rfl, fun _ => ⟨hc, ?_⟩⟩
                  exact ⟨l, p, [], s0, b, ci, rfl, by simp, hl, hc, hb, hci, hpin⟩
                · simp only [hpin, decide_False, Option.some.injEq] at hs
                  subst hs
                  exact ⟨ih1, fun h => ⟨hc, pinAccepted_snoc init l _ (ih2 h).2 (by simp)⟩⟩
            · rw [if_neg hex] at hs
              simp only [Option.some.injEq] at hs
              subst hs
              exact ⟨ih1, fun h => ⟨hc, pinAccepted_snoc init l _ (ih2 h).2 (by simp)⟩⟩
        · rw [if_neg hc] at hs
          simp only [Option.some.injEq] at hs
          subst hs
          exact ⟨ih1, fun h => ⟨(ih2 h).1, pinAccepted_snoc init l _ (ih2 h).2 (by simp)⟩⟩
      | selectAccount name =>
        simp only [step, ATMController.selectAccount] at hs
        by_cases hv : s0.is_pin_valid_ = true
        · have hk := ih2 hv
          rw [if_pos hv] at hs
          split at hs
          · split at hs <;> simp only [Option.some.injEq] at hs <;> subst hs
            · exact ⟨fun _ => hv, fun _ => ⟨hk.1, pinAccepted_snoc init l _ hk.2 (by simp)⟩⟩
            · exact ⟨ih1, fun _ => ⟨hk.1, pinAccepted_snoc init l _ hk.2 (by simp)⟩⟩
          · simp at hs
        · rw [if_neg hv] at hs
          simp only [Option.some.injEq] at hs
          subst hs
          exact ⟨ih1, fun h => absurd h hv⟩
      | seeBalance =>
        simp only [step, Option.map_eq_some'] at hs
        obtain ⟨_, _, hs⟩ := hs
        subst hs
        exact ⟨ih1, fun h => ⟨(ih2 h).1, pinAccepted_snoc init l _ (ih2 h).2 (by simp)⟩⟩
      | withdraw a =>
        simp only [step, Option.map_eq_some'] at hs
        obtain ⟨r, hw, hs⟩ := hs
        subst hs
        have hflags : r.1.account_exists_ = s0.account_exists_ ∧
            r.1.is_pin_valid_ = s0.is_pin_valid_ ∧ r.1.has_card_ = s0.has_card_ := by
          unfold ATMController.withdraw at hw
          split at hw
          · split at hw
            · simp at hw
            · split at hw
              · simp only [Option.some.injEq] at hw
                subst hw
                exact ⟨rfl, rfl, rfl⟩
              · split at hw
                · simp at hw
                · simp only [Option.some.injEq] at hw
                  subst hw
                  unfold ATMController.storeBalance
                  split <;> exact ⟨rfl, rfl, rfl⟩
          · simp only [Option.some.injEq] at hw
            subst hw
            exact ⟨rfl, rfl, rfl⟩
        obtain ⟨f1, f2, f3⟩ := hflags
        rw [f1, f2, f3]
        exact ⟨ih1, fun h => ⟨(ih2 h).1, pinAccepted_snoc init l _ (ih2 h).2 (by simp)⟩⟩
      | deposit a =>
        simp only [step] at hs
        have hflags : s.account_exists_ = s0.account_exists_ ∧
            s.is_pin_valid_ = s0.is_pin_valid_ ∧ s.has_card_ = s0.has_card_ := by
          unfold ATMController.deposit at hs
          split at hs
          · split at hs
            · simp at hs
            · split at hs
              · simp at hs
              · simp only [Option.some.injEq] at hs
                subst hs
                unfold ATMController.storeBalance
                split <;> exact ⟨rfl, rfl, rfl⟩
          · simp only [Option.some.injEq] at hs
            subst hs
            exact ⟨rfl, rfl, rfl⟩
        obtain ⟨f1, f2, f3⟩ := hflags
        rw [f1, f2, f3]
        exact ⟨ih1, fun h => ⟨(ih2 h).1, pinAccepted_snoc init l _ (ih2 h).2 (by simp)⟩⟩

/-- C1: in a session run from a freshly constructed controller on any registry,
a `selectAccount` call that ends with the account-selected flag set was preceded
by an `enterPin` call, later than every `removeCard`, whose PIN equals the
stored PIN of the card inserted at that moment; and with PIN-valid unset
`selectAccount` returns the state unchanged. -/
theorem selectAccount_requires_pin (bank : Bank) (pre : List Op) (name : String)
    (s : ATMController) (hrun : run (ATMController.construct (some bank)) pre = some s) :
    (∀ s1, s.selectAccount name = some s1 → s1.account_exists_ = true →
        PinAcceptedSinceRemoval (ATMController.construct (some bank)) pre) ∧
      (s.is_pin_valid_ = false → s.selectAccount name = some s) := by
  obtain ⟨h1, h2⟩ := flags_inv (ATMController.construct (some bank)) rfl rfl pre s hrun
  refine ⟨?_, ?_⟩
  · intro s1 hsel hacc
    by_cases hv : s.is_pin_valid_ = true
    · exact (h2 hv).2
    · unfold ATMController.selectAccount at hsel
      rw [if_neg hv] at hsel
      simp only [Option.some.injEq] at hsel
      subst hsel
      exact absurd (h1 hacc) hv
  · intro hv
    simp [ATMController.selectAccount, hv]

theorem selectAccount_requires_pin_witness :
    PinAcceptedSinceRemoval (ATMController.construct (some bank))
      [Op.insertCard 123123123, Op.enterPin "0000", Op.enterPin "1234"] :=
  (selectAccount_requires_pin bank
    [Op.insertCard 123123123, Op.enterPin "0000", Op.enterPin "1234"] "second"
    controllerAuthenticated (by decide)).1 controller_test (by decide) (by decide)

/-! ## Non-negative balances -/

theorem mem_of_mapFind {κ ν : Type} [DecidableEq κ] (k : κ) (v : ν) (m : List (κ × ν))
    (h : mapFind k m = some v) : (k, v) ∈ m := by
  induction m with
  | nil => simp [mapFind] at h
  | cons e rest ih =>
    obtain ⟨k2, v2⟩ := e
    by_cases h2 : k2 = k
    · simp [mapFind, h2] at h
      simp [h2, h]
    · simp [mapFind, h2] at h
      exact List.mem_cons_of_mem _ (ih h)

theorem mem_mapSet {κ ν : Type} [DecidableEq κ] (k : κ) (v : ν) (m : List (κ × ν))
    (e : κ × ν) (h : e ∈ mapSet k v m) : e ∈ m ∨ e = (k, v) := by
  induction m with
  | nil => simp [mapSet] at h
  | cons e2 rest ih =>
    obtain ⟨k2, v2⟩ := e2
    by_cases h2 : k2 = k
    · simp only [mapSet, h2, if_true, List.mem_cons] at h
      rcases h with h | h
      · exact Or.inr h
      · exact Or.inl (List.mem_cons_of_mem _ h)
    · simp only [mapSet, h2, if_false, List.mem_cons] at h
      rcases h with h | h
      · exact Or.inl (by simp [h])
      · rcases ih h with h3 | h3
        · exact Or.inl (List.mem_cons_of_mem _ h3)
        · exact Or.inr h3

theorem Bank.balancesNonneg_setBalance (b : Bank) (c : Int) (n : String) (v : Int)
    (hb : b.balancesNonneg) (hv : 0 ≤ v) : (b.setBalance c n v).balancesNonneg := by
  unfold Bank.setBalance
  cases hc : mapFind c b.cards_ with
  | none => exact hb
  | some ci =>
    intro e he a ha
    rcases mem_mapSet c _ b.cards_ e he with h1 | h1
    · exact hb e h1 a ha
    · subst h1
      rcases mem_mapSet n v ci.accounts a ha with h2 | h2
      · exact hb (c, ci) (mem_of_mapFind c ci b.cards_ hc) a h2
      · subst h2
        exact hv

theorem Bank.nonneg_of_balanceOf (b : Bank) (c : Int) (n : String) (v : Int)
    (hb : b.balancesNonneg) (h : b.balanceOf c n = some v) : 0 ≤ v := by
  unfold Bank.balanceOf at h
  cases hc : mapFind c b.cards_ with
  | none => simp [hc] at h
  | some ci =>
    simp only [hc, Option.some_bind] at h
    exact hb (c, ci) (mem_of_mapFind c ci b.cards_ hc) (n, v) (mem_of_mapFind n v ci.accounts h)

theorem storeBalance_nonneg (s : ATMController) (v : Int) (hv : 0 ≤ v)
    (h : ∃ b, s.bank_ = some b ∧ b.balancesNonneg) :
    ∃ b, (s.storeBalance v).bank_ = some b ∧ b.balancesNonneg := by
  obtain ⟨b, hb, hn⟩ := h
  unfold ATMController.storeBalance
  cases hp : s.account_balance_ with
  | none => simpa [hb] using hn
  | some p =>
    obtain ⟨c, n⟩ := p
    simpa [hb] using Bank.balancesNonneg_setBalance b c n v hn hv

theorem balance_nonneg (s : ATMController) (v : Int)
    (h : ∃ b, s.bank_ = some b ∧ b.balancesNonneg) (hv : s.balance = some v) : 0 ≤ v := by
  obtain ⟨b, hb, hn⟩ := h
  unfold ATMController.balance at hv
  cases hp : s.account_balance_ with
  | none => simp [hb, hp] at hv
  | some p =>
    obtain ⟨c, n⟩ := p
    simp only [hb, hp] at hv
    exact Bank.nonneg_of_balanceOf b c n v hn hv

/-- One call with a non-negative amount keeps a registry with non-negative
balances bound and its balances non-negative. -/
theorem step_nonneg (s0 s : ATMController) (op : Op) (hop : op.amountNonneg)
    (h : ∃ b, s0.bank_ = some b ∧ b.balancesNonneg) (hs : step s0 op = some s) :
    ∃ b, s.bank_ = some b ∧ b.balancesNonneg := by
  cases op with
  | insertCard n =>
    simp only [step, ATMController.insertCard] at hs
    split at hs
    · simp at hs
    · split at hs <;> simp only [Option.some.injEq] at hs <;> subst hs <;> exact h
  | removeCard =>
    simp only [step, ATMController.removeCard, Option.some.injEq] at hs
    split at hs <;> subst hs <;> exact h
  | enterPin p =>
    simp only [step, ATMController.enterPin] at hs
    split at hs
    · split at hs
      · simp at hs
      · split at hs
        · simp at hs
        · simp only [Option.some.injEq] at hs
          subst hs
          exact h
        · simp only [Option.some.injEq] at hs
          subst hs
          exact h
    · simp only [Option.some.injEq] at hs
      subst hs
      exact h
  | selectAccount name =>
    simp only [step, ATMController.selectAccount] at hs
    split at hs
    · split at hs
      · split at hs <;> simp only [Option.some.injEq] at hs <;> subst hs <;> exact h
      · simp at hs
    · simp only [Option.some.injEq] at hs
      subst hs
      exact h
  | seeBalance =>
    simp only [step, Option.map_eq_some'] at hs
    obtain ⟨_, _, hs⟩ := hs
    subst hs
    exact h
  | withdraw a =>
    simp only [step, Option.map_eq_some'] at hs
    obtain ⟨r, hw, hs⟩ := hs
    subst hs
    unfold ATMController.withdraw at hw
    split at hw
    · cases hbal : s0.balance with
      | none => simp [hbal] at hw
      | some bal =>
        simp only [hbal] at hw
        split at hw
        · simp only [Option.some.injEq] at hw
          subst hw
          exact h
        · rename_i hnlt
          by_cases hr : isInt (bal - a)
          · simp only [checkedInt, if_pos hr, Option.some.injEq] at hw
            subst hw
            exact storeBalance_nonneg s0 _ (by omega) h
          · simp [checkedInt, hr] at hw
    · simp only [Option.some.injEq] at hw
      subst hw
      exact h
  | deposit a =>
    simp only [step] at hs
    unfold ATMController.deposit at hs
    split at hs
    · cases hbal : s0.balance with
      | none => simp [hbal] at hs
      | some bal =>
        simp only [hbal] at hs
        have hb0 := balance_nonneg s0 bal h hbal
        have ha0 : 0 ≤ a := hop
        by_cases hr : isInt (bal + a)
        · simp only [checkedInt, if_pos hr, Option.some.injEq] at hs
          subst hs
          exact storeBalance_nonneg s0 _ (by omega) h
        · simp [checkedInt, hr] at hs
    · simp only [Option.some.injEq] at hs
      subst hs
      exact h

theorem run_nonneg (ops : List Op) (hops : ∀ op ∈ ops, op.amountNonneg) :
    ∀ s0 s : ATMController, (∃ b, s0.bank_ = some b ∧ b.balancesNonneg) →
      run s0 ops = some s → ∃ b, s.bank_ = some b ∧ b.balancesNonneg := by
  induction ops with
  | nil =>
    intro s0 s h hs
    simp only [run, Option.some.injEq] at hs
    subst hs
    exact h
  | cons op rest ih =>
    intro s0 s h hs
    simp only [run] at hs
    cases h1 : step s0 op with
    | none => simp [h1] at hs
    | some s1 =>
      simp only [h1, Option.some_bind] at hs
      exact ih (fun o ho => hops o (List.mem_cons_of_mem _ ho)) s1 s
        (step_nonneg s0 s1 op (hops op (List.mem_cons_self _ _)) h h1) hs

/-! ## Which calls have a defined result -/

theorem Bank.balancesInt_setBalance (b : Bank) (c : Int) (n : String) (v : Int)
    (hb : b.balancesInt) (hv : isInt v) : (b.setBalance c n v).balancesInt := by
  unfold Bank.setBalance
  cases hc : mapFind c b.cards_ with
  | none => exact hb
  | some ci =>
    intro e he a ha
    rcases mem_mapSet c _ b.cards_ e he with h1 | h1
    · exact hb e h1 a ha
    · subst h1
      rcases mem_mapSet n v ci.accounts a ha with h2 | h2
      · exact hb (c, ci) (mem_of_mapFind c ci b.cards_ hc) a h2
      · subst h2
        exact hv

theorem Bank.isInt_of_balanceOf (b : Bank) (c : Int) (n : String) (v : Int)
    (hb : b.balancesInt) (h : b.balanceOf c n = some v) : isInt v := by
  unfold Bank.balanceOf at h
  cases hc : mapFind c b.cards_ with
  | none => simp [hc] at h
  | some ci =>
    simp only [hc, Option.some_bind] at h
    exact hb (c, ci) (mem_of_mapFind c ci b.cards_ hc) (n, v) (mem_of_mapFind n v ci.accounts h)

theorem Bank.cardExists_setBalance (b : Bank) (c c1 : Int) (n : String) (v : Int) :
    (b.setBalance c n v).cardExists c1 = b.cardExists c1 := by
  unfold Bank.setBalance Bank.cardExists
  cases hc : mapFind c b.cards_ with
  | none => rfl
  | some ci =>
    simp only [mapFind_mapSet]
    by_cases h : c1 = c
    · subst h
      simp [hc]
    · simp [h]

theorem Bank.balanceOf_isSome_setBalance (b : Bank) (c c1 : Int) (n n1 : String) (v : Int) :
    ((b.setBalance c n v).balanceOf c1 n1).isSome = (b.balanceOf c1 n1).isSome := by
  rw [Bank.balanceOf_setBalance]
  by_cases h : c1 = c ∧ n1 = n
  · obtain ⟨h1, h2⟩ := h
    subst h1 h2
    simp
  · simp [h]

theorem wellFormed_storeBalance (s : ATMController) (v : Int) (hv : isInt v)
    (h : s.wellFormed) : (s.storeBalance v).wellFormed := by
  obtain ⟨b, hb, hint, hpin, hacc⟩ := h
  rcases s with ⟨bank0, ac, ab, cn, pn, hcd, pv, ae⟩
  dsimp only at hb hpin hacc
  subst hb
  unfold ATMController.storeBalance
  cases ab with
  | none => exact ⟨b, rfl, hint, hpin, hacc⟩
  | some p =>
    obtain ⟨c, n⟩ := p
    refine ⟨b.setBalance c n v, rfl, Bank.balancesInt_setBalance b c n v hint hv, ?_, ?_⟩
    · intro hv1
      obtain ⟨c1, h1, h2⟩ := hpin hv1
      exact ⟨c1, h1, by rw [Bank.cardExists_setBalance]; exact h2⟩
    · intro ha1
      obtain ⟨c1, n1, h1, h2⟩ := hacc ha1
      exact ⟨c1, n1, h1, by rw [Bank.balanceOf_isSome_setBalance]; exact h2⟩

theorem wellFormed_balance (s : ATMController) (h : s.wellFormed)
    (hacc : s.account_exists_ = true) : ∃ bal, s.balance = some bal ∧ isInt bal := by
  obtain ⟨b, hb, hint, _, hacc1⟩ := h
  obtain ⟨c, n, h1, h2⟩ := hacc1 hacc
  obtain ⟨bal, hbal⟩ := Option.isSome_iff_exists.mp h2
  refine ⟨bal, ?_, Bank.isInt_of_balanceOf b c n bal hint hbal⟩
  simp [ATMController.balance, hb, h1, hbal]

/-- One call keeps the guarded pointers dereferenceable. -/
theorem step_wellFormed (s0 s : ATMController) (op : Op) (h : s0.wellFormed)
    (hs : step s0 op = some s) : s.wellFormed := by
  have hwf := h
  obtain ⟨b, hb, hint, hpin, hacc⟩ := h
  rcases s0 with ⟨bank0, ac, ab, cn, pn, hcd, pv, ae⟩
  dsimp only at hb hpin hacc
  subst hb
  cases op with
  | insertCard n =>
    simp only [step, ATMController.insertCard] at hs
    split at hs <;> simp only [Option.some.injEq] at hs <;> subst hs
    · exact ⟨b, rfl, hint, hpin, hacc⟩
    · exact ⟨b, rfl, hint, hpin, hacc⟩
  | removeCard =>
    simp only [step, ATMController.removeCard, Option.some.injEq] at hs
    split at hs <;> subst hs
    · exact ⟨b, rfl, hint, by simp, by simp⟩
    · exact ⟨b, rfl, hint, hpin, hacc⟩
  | enterPin p =>
    simp only [step, ATMController.enterPin] at hs
    by_cases hc : hcd = true
    · rw [if_pos hc] at hs
      simp only [Bank.isPinCorrect] at hs
      by_cases hex : b.cardExists cn = true
      · rw [if_pos hex] at hs
        cases hci : b.cardsAt cn with
        | none => simp [hci] at hs
        | some ci =>
          simp only [hci, Option.map_some'] at hs
          by_cases hp : ci.pin = p
          · simp only [hp, decide_True, Option.some.injEq] at hs
            subst hs
            exact ⟨b, rfl, hint, fun _ => ⟨cn, rfl, hex⟩, hacc⟩
          · simp only [hp, decide_False, Option.some.injEq] at hs
            subst hs
            exact ⟨b, rfl, hint, fun _ => ⟨cn, rfl, hex⟩, hacc⟩
      · rw [if_neg hex] at hs
        simp only [Option.some.injEq] at hs
        subst hs
        exact ⟨b, rfl, hint, hpin, hacc⟩
    · rw [if_neg hc] at hs
      simp only [Option.some.injEq] at hs
      subst hs
      exact ⟨b, rfl, hint, hpin, hacc⟩
  | selectAccount name =>
    simp only [step, ATMController.selectAccount] at hs
    by_cases hv : pv = true
    · rw [if_pos hv] at hs
      obtain ⟨c, hc1, hc2⟩ := hpin hv
      subst hc1
      cases hci : b.cardsAt c with
      | none => simp [ATMController.activeCard, hci] at hs
      | some ci =>
        simp only [ATMController.activeCard, hci] at hs
        cases hfind : mapFind name ci.accounts with
        | none =>
          simp only [hfind, Option.some.injEq] at hs
          subst hs
          exact ⟨b, rfl, hint, hpin, hacc⟩
        | some v =>
          simp only [hfind, Option.some.injEq] at hs
          subst hs
          refine ⟨b, rfl, hint, hpin, fun _ => ⟨c, name, rfl, ?_⟩⟩
          unfold Bank.cardsAt at hci
          simp [Bank.balanceOf, hci, hfind]
    · rw [if_neg hv] at hs
      simp only [Option.some.injEq] at hs
      subst hs
      exact ⟨b, rfl, hint, hpin, hacc⟩
  | seeBalance =>
    simp only [step, Option.map_eq_some'] at hs
    obtain ⟨_, _, hs⟩ := hs
    subst hs
    exact ⟨b, rfl, hint, hpin, hacc⟩
  | withdraw a =>
    simp only [step, Option.map_eq_some'] at hs
    obtain ⟨r, hw, hs⟩ := hs
    subst hs
    unfold ATMController.withdraw at hw
    split at hw
    · split at hw
      · simp at hw
      · split at hw
        · simp only [Option.some.injEq] at hw
          subst hw
          exact ⟨b, rfl, hint, hpin, hacc⟩
        · rename_i bal _ _
          by_cases hr : isInt (bal - a)
          · simp only [checkedInt, if_pos hr, Option.some.injEq] at hw
            subst hw
            exact wellFormed_storeBalance _ _ hr hwf
          · simp [checkedInt, hr] at hw
    · simp only [Option.some.injEq] at hw
      subst hw
      exact ⟨b, rfl, hint, hpin, hacc⟩
  | deposit a =>
    simp only [step] at hs
    unfold ATMController.deposit at hs
    split at hs
    · split at hs
      · simp at hs
      · rename_i bal _
        by_cases hr : isInt (bal + a)
        · simp only [checkedInt, if_pos hr, Option.some.injEq] at hs
          subst hs
          exact wellFormed_storeBalance _ _ hr hwf
        · simp [checkedInt, hr] at hs
    · simp only [Option.some.injEq] at hs
      subst hs
      exact ⟨b, rfl, hint, hpin, hacc⟩

/-- On a well-formed state with non-negative balances, the only call with a
non-negative amount that has no defined result is a `deposit` whose sum exceeds
the largest `int`. -/
theorem step_none (s0 : ATMController) (op : Op) (h : s0.wellFormed)
    (hn : ∃ b, s0.bank_ = some b ∧ b.balancesNonneg) (hop : op.amountNonneg)
    (hs : step s0 op = none) :
    ∃ a bal, op = Op.deposit a ∧ s0.account_exists_ = true ∧ s0.balance = some bal ∧
      INT_MAX < bal + a := by
  have hwf := h
  obtain ⟨b, hb, hint, hpin, hacc⟩ := h
  rcases s0 with ⟨bank0, ac, ab, cn, pn, hcd, pv, ae⟩
  dsimp only at hb hpin hacc
  subst hb
  cases op with
  | insertCard n =>
    simp only [step, ATMController.insertCard] at hs
    split at hs <;> simp at hs
  | removeCard => simp [step] at hs
  | enterPin p =>
    simp only [step, ATMController.enterPin] at hs
    by_cases hc : hcd = true
    · rw [if_pos hc] at hs
      simp only [Bank.isPinCorrect] at hs
      by_cases hex : b.cardExists cn = true
      · rw [if_pos hex] at hs
        obtain ⟨ci, hci⟩ := Option.isSome_iff_exists.mp hex
        have hci2 : b.cardsAt cn = some ci := hci
        simp only [hci2, Option.map_some'] at hs
        by_cases hp : ci.pin = p <;> simp [hp] at hs
      · rw [if_neg hex] at hs
        simp at hs
    · rw [if_neg hc] at hs
      simp at hs
  | selectAccount name =>
    simp only [step, ATMController.selectAccount] at hs
    by_cases hv : pv = true
    · rw [if_pos hv] at hs
      obtain ⟨c, hc1, hc2⟩ := hpin hv
      subst hc1
      obtain ⟨ci, hci⟩ := Option.isSome_iff_exists.mp hc2
      have hci2 : b.cardsAt c = some ci := hci
      simp only [ATMController.activeCard, hci2] at hs
      cases hfind : mapFind name ci.accounts <;> simp [hfind] at hs
    · rw [if_neg hv] at hs
      simp at hs
  | seeBalance =>
    simp only [step, ATMController.seeBalance, Option.map_eq_none'] at hs
    by_cases ha : ae = true
    · obtain ⟨bal, hbal, _⟩ := wellFormed_balance _ hwf ha
      rw [if_pos ha, hbal] at hs
      simp at hs
    · rw [if_neg ha] at hs
      simp at hs
  | withdraw a =>
    simp only [step, Option.map_eq_none'] at hs
    unfold ATMController.withdraw at hs
    by_cases ha : ae = true
    · obtain ⟨bal, hbal, hbi⟩ := wellFormed_balance _ hwf ha
      rw [if_pos ha] at hs
      simp only [hbal] at hs
      have ha0 : 0 ≤ a := hop
      by_cases hlt : bal < a
      · rw [if_pos hlt] at hs
        simp at hs
      · rw [if_neg hlt] at hs
        have hr : isInt (bal - a) := by
          unfold isInt INT_MIN INT_MAX at *
          omega
        simp [checkedInt, hr] at hs
    · rw [if_neg ha] at hs
      simp at hs
  | deposit a =>
    simp only [step] at hs
    unfold ATMController.deposit at hs
    by_cases ha : ae = true
    · obtain ⟨bal, hbal, hbi⟩ := wellFormed_balance _ hwf ha
      rw [if_pos ha] at hs
      simp only [hbal] at hs
      have ha0 : 0 ≤ a := hop
      have hb0 : 0 ≤ bal := balance_nonneg _ bal hn hbal
      by_cases hr : isInt (bal + a)
      · simp [checkedInt, hr] at hs
      · refine ⟨a, bal, rfl, ha, hbal, ?_⟩
        unfold isInt INT_MIN INT_MAX at *
        omega
    · rw [if_neg ha] at hs
      simp at hs

theorem run_none (ops : List Op) (hops : ∀ op ∈ ops, op.amountNonneg) :
    ∀ s0 : ATMController, s0.wellFormed → (∃ b, s0.bank_ = some b ∧ b.balancesNonneg) →
      run s0 ops = none → DepositOverflows s0 ops := by
  induction ops with
  | nil =>
    intro s0 _ _ hs
    simp [run] at hs
  | cons op rest ih =>
    intro s0 hwf hn hs
    have hop := hops op (List.mem_cons_self _ _)
    cases h1 : step s0 op with
    | none =>
      obtain ⟨a, bal, hopeq, hacc, hbal, hov⟩ := step_none s0 op hwf hn hop h1
      subst hopeq
      exact ⟨[], a, rest, s0, bal, rfl, rfl, hacc, hbal, hov⟩
    | some s1 =>
      simp only [run, h1, Option.some_bind] at hs
      obtain ⟨pre, a, rest2, s, bal, hsplit, hrun, hacc, hbal, hov⟩ :=
        ih (fun o ho => hops o (List.mem_cons_of_mem _ ho)) s1 (step_wellFormed s0 s1 op hwf h1)
          (step_nonneg s0 s1 op hop hn h1) hs
      refine ⟨op :: pre, a, rest2, s, bal, by simp [hsplit], ?_, hacc, hbal, hov⟩
      simp [run, h1, hrun]

/-- C7: when every balance of the registry is non-negative at construction,
then after any sequence of calls whose `withdraw` and `deposit` amounts are all
non-negative the controller is still bound to a registry in which every balance
is non-negative.  The sequence fails to reach a state only at a `deposit` whose
exact sum exceeds the largest `int` (the registry holding `int` values). -/
theorem balances_stay_nonneg (bank : Bank) (ops : List Op)
    (h0 : bank.balancesNonneg) (hops : ∀ op ∈ ops, op.amountNonneg) :
    (∀ s, run (ATMController.construct (some bank)) ops = some s →
        ∃ b, s.bank_ = some b ∧ b.balancesNonneg) ∧
      (bank.balancesInt → run (ATMController.construct (some bank)) ops = none →
        DepositOverflows (ATMController.construct (some bank)) ops) := by
  refine ⟨fun s hrun => ?_, fun hint hrun => ?_⟩
  · exact run_nonneg ops hops (ATMController.construct (some bank)) s ⟨bank, rfl, h0⟩ hrun
  · refine run_none ops hops (ATMController.construct (some bank)) ?_ ⟨bank, rfl, h0⟩ hrun
    exact ⟨bank, rfl, hint, by simp [ATMController.construct],
      by simp [ATMController.construct]⟩

theorem balances_stay_nonneg_witness :
    ∃ b, (controller_test.storeBalance 0).removeCard.bank_ = some b ∧ b.balancesNonneg :=
  (balances_stay_nonneg bank
    [Op.insertCard 123123123, Op.enterPin "0000", Op.enterPin "1234",
      Op.selectAccount "wrong_name", Op.selectAccount "second", Op.seeBalance,
      Op.withdraw 200, Op.deposit 50, Op.seeBalance, Op.withdraw 200, Op.seeBalance,
      Op.removeCard]
    (by decide) (by decide)).1 (controller_test.storeBalance 0).removeCard (by decide)

/-! ## Card removal, unselected sessions and account lookup -/

namespace ATMController

theorem removeCard_of_has_card (s : ATMController) (hcard : s.has_card_ = true) :
    s.removeCard = { construct s.bank_ with pin_ := s.pin_ } := by
  cases hb : s.bank_ <;> simp [removeCard, construct, hcard, hb]

/-- C11 (the code at the failing input): in the session of `main` after
`insertCard(123123123)` and `enterPin("1234")`, `removeCard` resets the card
number, both pointers and the three flags but leaves `pin_` holding "1234", so
the state differs from a freshly constructed controller on the same registry. -/
theorem removeCard_keeps_pin :
    run (construct (some bank)) [Op.insertCard 123123123, Op.enterPin "1234"] =
        some controllerAuthenticated ∧
      controllerAuthenticated.has_card_ = true ∧
      controllerAuthenticated.removeCard = { construct (some bank) with pin_ := "1234" } ∧
      controllerAuthenticated.removeCard.pin_ = "1234" ∧
      (construct (some bank)).pin_ = "" ∧
      controllerAuthenticated.removeCard ≠ construct (some bank) := by
  decide

/-- C13: with account-selected unset, whatever the other flags, `seeBalance`
returns -1, and `withdraw` and `deposit` return the whole state (registry
included) and `returned_amount` unchanged, for every amount. -/
theorem no_account_selected (s : ATMController) (amount returned_amount : Int)
    (hacc : s.account_exists_ = false) :
    s.seeBalance = some (-1) ∧
      s.withdraw amount returned_amount = some (s, returned_amount) ∧
      s.deposit amount = some s := by
  simp [seeBalance, withdraw, deposit, hacc]

theorem no_account_selected_witness :
    controllerAuthenticated.seeBalance = some (-1) ∧
      controllerAuthenticated.withdraw 200 0 = some (controllerAuthenticated, 0) ∧
      controllerAuthenticated.deposit 50 = some controllerAuthenticated :=
  no_account_selected controllerAuthenticated 200 0 (by decide)

theorem selectAccount_found (s : ATMController) (b : Bank) (c : Int) (ci : CardInfo)
    (name : String) (v : Int) (hpin : s.is_pin_valid_ = true) (hbank : s.bank_ = some b)
    (hac : s.active_card_ = some c) (hci : b.cardsAt c = some ci)
    (hfind : mapFind name ci.accounts = some v) :
    s.selectAccount name =
      some { s with account_exists_ := true, account_balance_ := some (c, name) } := by
  simp [selectAccount, hpin, activeCard, hbank, hac, hci, hfind]

/-- C14: with PIN-valid set and `active_card_` pointing at card `c` of the
registry, `selectAccount(name)` for a key `name` of that card's accounts sets
account-selected, binds the balance pointer to that account, and `seeBalance`
then returns the balance stored for `name`; for a name that is not a key the
state is returned unchanged (a selected account stays selected). -/
theorem selectAccount_lookup (s : ATMController) (b : Bank) (c : Int) (ci : CardInfo)
    (name : String) (hpin : s.is_pin_valid_ = true) (hbank : s.bank_ = some b)
    (hac : s.active_card_ = some c) (hci : b.cardsAt c = some ci) :
    (name ∈ ci.accounts.map Prod.fst →
        ∃ v s1, mapFind name ci.accounts = some v ∧ b.balanceOf c name = some v ∧
          s.selectAccount name = some s1 ∧
          s1 = { s with account_exists_ := true, account_balance_ := some (c, name) } ∧
          s1.seeBalance = some v) ∧
      (name ∉ ci.accounts.map Prod.fst →
        s.selectAccount name = some s ∧ mapFind name ci.accounts = none) := by
  have hci2 : mapFind c b.cards_ = some ci := hci
  refine ⟨fun hmem => ?_, fun hmem => ?_⟩
  · obtain ⟨v, hv⟩ := Option.isSome_iff_exists.mp ((mapFind_isSome_iff name ci.accounts).mpr hmem)
    have hbal : b.balanceOf c name = some v := by
      simp [Bank.balanceOf, hci2, hv]
    refine ⟨v, _, hv, hbal, selectAccount_found s b c ci name v hpin hbank hac hci hv, rfl, ?_⟩
    simp [seeBalance, balance, hbank, hbal]
  · have hnone : mapFind name ci.accounts = none := by
      cases h : mapFind name ci.accounts with
      | none => rfl
      | some v =>
        exact absurd ((mapFind_isSome_iff name ci.accounts).mp (by simp [h])) hmem
    exact ⟨by simp [selectAccount, hpin, activeCard, hbank, hac, hci, hnone], hnone⟩

theorem selectAccount_lookup_witness :
    ("second" ∈ c1.accounts.map Prod.fst →
        ∃ v s1, mapFind "second" c1.accounts = some v ∧
          bank.balanceOf 123123123 "second" = some v ∧
          controllerAuthenticated.selectAccount "second" = some s1 ∧
          s1 = { controllerAuthenticated with
            account_exists_ := true, account_balance_ := some (123123123, "second") } ∧
          s1.seeBalance = some v) ∧
      ("second" ∉ c1.accounts.map Prod.fst →
        controllerAuthenticated.selectAccount "second" = some controllerAuthenticated ∧
          mapFind "second" c1.accounts = none) :=
  selectAccount_lookup controllerAuthenticated bank 123123123 c1 "second" (by decide)
    (by decide) (by decide) (by decide)

/-- C16 (the code at the failing input): the constructor called with a null
`Bank` is not rejected, it returns a controller whose `bank_` is null; on that
controller `insertCard` dereferences the null pointer and has no defined
result. -/
theorem construct_null_accepted :
    (construct none).bank_ = none ∧
      construct none =
        { bank_ := none, active_card_ := none, account_balance_ := none, card_num_ := -1,
          pin_ := "", has_card_ := false, is_pin_valid_ := false, account_exists_ := false } ∧
      (construct none).insertCard 123123123 = none ∧
      run (construct none) [Op.insertCard 123123123] = none := by
  decide

/-- C20: with an account selected whose `int` balance `b` is non-negative and an
amount `a ≥ 0`, when the exact sum `b + a` fits an `int`, `deposit(a)` followed
by `withdraw(a, returned_amount)` sets `returned_amount` to `a` and ends in the
state before the deposit, with selected balance `b`; the only other case is the
`deposit` overflowing. -/
theorem deposit_withdraw_roundtrip (s : ATMController) (a returned_amount b : Int)
    (hsel : s.account_exists_ = true) (hb : s.balance = some b) (hbi : isInt b)
    (hb0 : 0 ≤ b) (h0 : 0 ≤ a) :
    (b + a ≤ INT_MAX →
        ∃ s1 s2, s.deposit a = some s1 ∧ s1.balance = some (b + a) ∧
          s1.withdraw a returned_amount = some (s2, a) ∧ s2.balance = some b ∧ s2 = s) ∧
      (INT_MAX < b + a → s.deposit a = none) := by
  refine ⟨fun hmax => ?_, fun hov => ?_⟩
  · have hr : isInt (b + a) := by
      unfold isInt INT_MIN INT_MAX at *
      omega
    have hbal := balance_storeBalance s b (b + a) hb
    have hsel1 : (s.storeBalance (b + a)).account_exists_ = true := by
      rw [account_exists_storeBalance]
      exact hsel
    have hw := withdraw_within_balance (s.storeBalance (b + a)) a returned_amount (b + a)
      hsel1 hbal hr h0 (by omega)
    refine ⟨s.storeBalance (b + a), s, ?_, hbal, ?_, hb, rfl⟩
    · simp [deposit, hsel, hb, checkedInt, hr]
    · rw [hw, storeBalance_storeBalance]
      simp [storeBalance_of_balance s b hb]
  · have hr : ¬ isInt (b + a) := by
      unfold isInt INT_MIN INT_MAX at *
      omega
    simp [deposit, hsel, hb, checkedInt, hr]

theorem deposit_withdraw_roundtrip_witness :
    ((150 : Int) + 50 ≤ INT_MAX →
        ∃ s1 s2, controller_test.deposit 50 = some s1 ∧ s1.balance = some (150 + 50) ∧
          s1.withdraw 50 0 = some (s2, 50) ∧ s2.balance = some 150 ∧ s2 = controller_test) ∧
      (INT_MAX < (150 : Int) + 50 → controller_test.deposit 50 = none) :=
  deposit_withdraw_roundtrip controller_test 50 0 150 (by decide) (by decide) (by decide)
    (by decide) (by decide)

end ATMController

/-- C12: from any state reached from a freshly constructed controller,
`removeCard` ends with has-card, PIN-valid and account-selected all unset, a
following `seeBalance` returns -1, and `removeCard` with has-card unset returns
the state unchanged. -/
theorem removeCard_resets (bank : Option Bank) (pre : List Op) (s : ATMController)
    (hrun : run (ATMController.construct bank) pre = some s) :
    s.removeCard.has_card_ = false ∧ s.removeCard.is_pin_valid_ = false ∧
      s.removeCard.account_exists_ = false ∧ s.removeCard.seeBalance = some (-1) ∧
      (s.has_card_ = false → s.removeCard = s) := by
  obtain ⟨h1, h2⟩ := flags_inv (ATMController.construct bank) rfl rfl pre s hrun
  by_cases hc : s.has_card_ = true
  · simp [ATMController.removeCard, ATMController.seeBalance, hc]
  · have hc2 : s.has_card_ = false := by simpa using hc
    have hv : s.is_pin_valid_ = false := by
      cases h : s.is_pin_valid_ with
      | false => rfl
      | true => exact absurd (h2 h).1 hc
    have ha : s.account_exists_ = false := by
      cases h : s.account_exists_ with
      | false => rfl
      | true =>
        rw [h1 h] at hv
        exact absurd hv (by simp)
    simp [ATMController.removeCard, ATMController.seeBalance, hc2, hv, ha]

theorem removeCard_resets_witness :
    controller_test.removeCard.has_card_ = false ∧
      controller_test.removeCard.is_pin_valid_ = false ∧
      controller_test.removeCard.account_exists_ = false ∧
      controller_test.removeCard.seeBalance = some (-1) ∧
      (controller_test.has_card_ = false → controller_test.removeCard = controller_test) :=
  removeCard_resets (some bank)
    [Op.insertCard 123123123, Op.enterPin "0000", Op.enterPin "1234",
      Op.selectAccount "wrong_name", Op.selectAccount "second"]
    controller_test (by decide)

/-! ## The prerequisite chain of the flags -/

theorem pointersBound_storeBalance (s : ATMController) (v : Int) (h : s.pointersBound) :
    (s.storeBalance v).pointersBound := by
  obtain ⟨hpin, hacc⟩ := h
  rcases s with ⟨bank0, ac, ab, cn, pn, hcd, pv, ae⟩
  dsimp only at hpin hacc
  unfold ATMController.storeBalance
  cases bank0 with
  | none => exact ⟨hpin, hacc⟩
  | some b =>
    cases ab with
    | none => exact ⟨hpin, hacc⟩
    | some p =>
      obtain ⟨c, n⟩ := p
      refine ⟨fun hv => ?_, fun ha => ?_⟩
      · obtain ⟨b1, c1, h1, h2, h3⟩ := hpin hv
        simp only [Option.some.injEq] at h1
        subst h1
        exact ⟨_, c1, rfl, h2, by rw [Bank.cardExists_setBalance]; exact h3⟩
      · obtain ⟨b1, c1, n1, h1, h2, h3⟩ := hacc ha
        simp only [Option.some.injEq] at h1
        subst h1
        exact ⟨_, c1, n1, rfl, h2, by rw [Bank.balanceOf_isSome_setBalance]; exact h3⟩

/-- One call keeps the pointers read under a flag bound. -/
theorem step_pointersBound (s0 s : ATMController) (op : Op) (h : s0.pointersBound)
    (hs : step s0 op = some s) : s.pointersBound := by
  have hpb := h
  obtain ⟨hpin, hacc⟩ := h
  rcases s0 with ⟨bank0, ac, ab, cn, pn, hcd, pv, ae⟩
  dsimp only at hpin hacc
  cases op with
  | insertCard n =>
    simp only [step, ATMController.insertCard] at hs
    split at hs
    · simp at hs
    · split at hs <;> simp only [Option.some.injEq] at hs <;> subst hs
      · exact ⟨hpin, hacc⟩
      · exact ⟨hpin, hacc⟩
  | removeCard =>
    simp only [step, ATMController.removeCard, Option.some.injEq] at hs
    split at hs <;> subst hs
    · exact ⟨by simp, by simp⟩
    · exact ⟨hpin, hacc⟩
  | enterPin p =>
    simp only [step, ATMController.enterPin] at hs
    by_cases hc : hcd = true
    · rw [if_pos hc] at hs
      cases bank0 with
      | none => simp at hs
      | some b =>
        simp only [Bank.isPinCorrect] at hs
        by_cases hex : b.cardExists cn = true
        · rw [if_pos hex] at hs
          cases hci : b.cardsAt cn with
          | none => simp [hci] at hs
          | some ci =>
            simp only [hci, Option.map_some'] at hs
            by_cases hp : ci.pin = p
            · simp only [hp, decide_True, Option.some.injEq] at hs
              subst hs
              exact ⟨fun _ => ⟨b, cn, rfl, rfl, hex⟩, hacc⟩
            · simp only [hp, decide_False, Option.some.injEq] at hs
              subst hs
              exact ⟨fun _ => ⟨b, cn, rfl, rfl, hex⟩, hacc⟩
        · rw [if_neg hex] at hs
          simp only [Option.some.injEq] at hs
          subst hs
          exact ⟨hpin, hacc⟩
    · rw [if_neg hc] at hs
      simp only [Option.some.injEq] at hs
      subst hs
      exact ⟨hpin, hacc⟩
  | selectAccount name =>
    simp only [step, ATMController.selectAccount] at hs
    by_cases hv : pv = true
    · rw [if_pos hv] at hs
      obtain ⟨b, c, hb1, hc1, hc2⟩ := hpin hv
      subst hb1 hc1
      cases hci : b.cardsAt c with
      | none => simp [ATMController.activeCard, hci] at hs
      | some ci =>
        simp only [ATMController.activeCard, hci] at hs
        cases hfind : mapFind name ci.accounts with
        | none =>
          simp only [hfind, Option.some.injEq] at hs
          subst hs
          exact ⟨hpin, hacc⟩
        | some v =>
          simp only [hfind, Option.some.injEq] at hs
          subst hs
          refine ⟨hpin, fun _ => ⟨b, c, name, rfl, rfl, ?_⟩⟩
          unfold Bank.cardsAt at hci
          simp [Bank.balanceOf, hci, hfind]
    · rw [if_neg hv] at hs
      simp only [Option.some.injEq] at hs
      subst hs
      exact ⟨hpin, hacc⟩
  | seeBalance =>
    simp only [step, Option.map_eq_some'] at hs
    obtain ⟨_, _, hs⟩ := hs
    subst hs
    exact ⟨hpin, hacc⟩
  | withdraw a =>
    simp only [step, Option.map_eq_some'] at hs
    obtain ⟨r, hw, hs⟩ := hs
    subst hs
    unfold ATMController.withdraw at hw
    split at hw
    · split at hw
      · simp at hw
      · split at hw
        · simp only [Option.some.injEq] at hw
          subst hw
          exact ⟨hpin, hacc⟩
        · rename_i bal _ _
          by_cases hr : isInt (bal - a)
          · simp only [checkedInt, if_pos hr, Option.some.injEq] at hw
            subst hw
            exact pointersBound_storeBalance _ _ hpb
          · simp [checkedInt, hr] at hw
    · simp only [Option.some.injEq] at hw
      subst hw
      exact ⟨hpin, hacc⟩
  | deposit a =>
    simp only [step] at hs
    unfold ATMController.deposit at hs
    split at hs
    · split at hs
      · simp at hs
      · rename_i bal _
        by_cases hr : isInt (bal + a)
        · simp only [checkedInt, if_pos hr, Option.some.injEq] at hs
          subst hs
          exact pointersBound_storeBalance _ _ hpb
        · simp [checkedInt, hr] at hs
    · simp only [Option.some.injEq] at hs
      subst hs
      exact ⟨hpin, hacc⟩

theorem run_pointersBound (ops : List Op) :
    ∀ s0 s : ATMController, s0.pointersBound → run s0 ops = some s → s.pointersBound := by
  induction ops with
  | nil =>
    intro s0 s h hs
    simp only [run, Option.some.injEq] at hs
    subst hs
    exact h
  | cons op rest ih =>
    intro s0 s h hs
    simp only [run] at hs
    cases h1 : step s0 op with
    | none => simp [h1] at hs
    | some s1 =>
      simp only [h1, Option.some_bind] at hs
      exact ih s1 s (step_pointersBound s0 s1 op h h1) hs

/-- C17: in every state reached from a freshly constructed controller,
account-selected implies PIN-valid, PIN-valid implies has-card, and
account-selected implies that `account_balance_` points at a balance of the
registry, which is what `seeBalance` returns. -/
theorem flag_chain (bank : Option Bank) (pre : List Op) (s : ATMController)
    (hrun : run (ATMController.construct bank) pre = some s) :
    (s.account_exists_ = true → s.is_pin_valid_ = true) ∧
      (s.is_pin_valid_ = true → s.has_card_ = true) ∧
      (s.account_exists_ = true →
        ∃ b c n v, s.bank_ = some b ∧ s.account_balance_ = some (c, n) ∧
          b.balanceOf c n = some v ∧ s.seeBalance = some v) := by
  obtain ⟨h1, h2⟩ := flags_inv (ATMController.construct bank) rfl rfl pre s hrun
  have hpb : s.pointersBound :=
    run_pointersBound pre (ATMController.construct bank) s
      ⟨by simp [ATMController.construct], by simp [ATMController.construct]⟩ hrun
  refine ⟨h1, fun h => (h2 h).1, fun ha => ?_⟩
  obtain ⟨b, c, n, hb, hp, hsome⟩ := hpb.2 ha
  obtain ⟨v, hv⟩ := Option.isSome_iff_exists.mp hsome
  exact ⟨b, c, n, v, hb, hp, hv, by simp [ATMController.seeBalance, ATMController.balance, ha, hb, hp, hv]⟩

theorem flag_chain_witness :
    (controller_test.account_exists_ = true → controller_test.is_pin_valid_ = true) ∧
      (controller_test.is_pin_valid_ = true → controller_test.has_card_ = true) ∧
      (controller_test.account_exists_ = true →
        ∃ b c n v, controller_test.bank_ = some b ∧
          controller_test.account_balance_ = some (c, n) ∧
          b.balanceOf c n = some v ∧ controller_test.seeBalance = some v) :=
  flag_chain (some bank)
    [Op.insertCard 123123123, Op.enterPin "0000", Op.enterPin "1234",
      Op.selectAccount "wrong_name", Op.selectAccount "second"]
    controller_test (by decide)

/-! ## What a call may change in the registry -/

theorem map_mapSet_of_eq {κ ν β : Type} [DecidableEq κ] (f : κ × ν → β) (k : κ) (v v0 : ν)
    (m : List (κ × ν)) (h : mapFind k m = some v0) (hf : f (k, v) = f (k, v0)) :
    (mapSet k v m).map f = m.map f := by
  induction m with
  | nil => simp [mapSet]
  | cons e rest ih =>
    obtain ⟨k2, v2⟩ := e
    by_cases h2 : k2 = k
    · subst h2
      simp only [mapFind, if_true, Option.some.injEq] at h
      subst h
      simp [mapSet, hf]
    · simp only [mapFind, h2, if_false] at h
      simp [mapSet, h2, ih h]

theorem map_fst_mapSet {κ ν : Type} [DecidableEq κ] (k : κ) (v : ν) (m : List (κ × ν)) :
    (mapSet k v m).map Prod.fst = m.map Prod.fst := by
  induction m with
  | nil => simp [mapSet]
  | cons e rest ih =>
    obtain ⟨k2, v2⟩ := e
    by_cases h2 : k2 = k
    · simp [mapSet, h2]
    · simp [mapSet, h2, ih]

theorem Bank.cardNumbers_setBalance (b : Bank) (c : Int) (n : String) (v : Int) :
    (b.setBalance c n v).cardNumbers = b.cardNumbers := by
  unfold Bank.setBalance Bank.cardNumbers
  cases hc : mapFind c b.cards_ with
  | none => rfl
  | some ci => exact map_fst_mapSet c _ b.cards_

theorem Bank.pins_setBalance (b : Bank) (c : Int) (n : String) (v : Int) :
    (b.setBalance c n v).pins = b.pins := by
  unfold Bank.setBalance Bank.pins
  cases hc : mapFind c b.cards_ with
  | none => rfl
  | some ci => exact map_mapSet_of_eq _ c _ ci b.cards_ hc rfl

theorem Bank.accountNames_setBalance (b : Bank) (c : Int) (n : String) (v : Int) :
    (b.setBalance c n v).accountNames = b.accountNames := by
  unfold Bank.setBalance Bank.accountNames
  cases hc : mapFind c b.cards_ with
  | none => rfl
  | some ci =>
    refine map_mapSet_of_eq _ c _ ci b.cards_ hc ?_
    simp [map_fst_mapSet]

/-- The registry after one call is the registry before it, except that
`withdraw` and `deposit` with an account selected may have stored one value
through `account_balance_`. -/
theorem step_bank (s s1 : ATMController) (op : Op) (hs : step s op = some s1) :
    s1.bank_ = s.bank_ ∨
      (s.account_exists_ = true ∧ ((∃ a, op = Op.withdraw a) ∨ ∃ a, op = Op.deposit a) ∧
        ∃ v, s1.bank_ = (s.storeBalance v).bank_) := by
  cases op with
  | insertCard n =>
    simp only [step, ATMController.insertCard] at hs
    split at hs
    · simp at hs
    · split at hs <;> simp only [Option.some.injEq] at hs <;> subst hs <;> exact Or.inl rfl
  | removeCard =>
    simp only [step, ATMController.removeCard, Option.some.injEq] at hs
    split at hs <;> subst hs <;> exact Or.inl rfl
  | enterPin p =>
    simp only [step, ATMController.enterPin] at hs
    split at hs
    · split at hs
      · simp at hs
      · split at hs
        · simp at hs
        · simp only [Option.some.injEq] at hs
          subst hs
          exact Or.inl rfl
        · simp only [Option.some.injEq] at hs
          subst hs
          exact Or.inl rfl
    · simp only [Option.some.injEq] at hs
      subst hs
      exact Or.inl rfl
  | selectAccount name =>
    simp only [step, ATMController.selectAccount] at hs
    split at hs
    · split at hs
      · split at hs <;> simp only [Option.some.injEq] at hs <;> subst hs <;> exact Or.inl rfl
      · simp at hs
    · simp only [Option.some.injEq] at hs
      subst hs
      exact Or.inl rfl
  | seeBalance =>
    simp only [step, Option.map_eq_some'] at hs
    obtain ⟨_, _, hs⟩ := hs
    subst hs
    exact Or.inl rfl
  | withdraw a =>
    simp only [step, Option.map_eq_some'] at hs
    obtain ⟨r, hw, hs⟩ := hs
    subst hs
    unfold ATMController.withdraw at hw
    split at hw
    · rename_i hacc
      split at hw
      · simp at hw
      · split at hw
        · simp only [Option.some.injEq] at hw
          subst hw
          exact Or.inl rfl
        · rename_i bal _ _
          by_cases hr : isInt (bal - a)
          · simp only [checkedInt, if_pos hr, Option.some.injEq] at hw
            subst hw
            exact Or.inr ⟨hacc, Or.inl ⟨a, rfl⟩, bal - a, rfl⟩
          · simp [checkedInt, hr] at hw
    · simp only [Option.some.injEq] at hw
      subst hw
      exact Or.inl rfl
  | deposit a =>
    simp only [step] at hs
    unfold ATMController.deposit at hs
    split at hs
    · rename_i hacc
      split at hs
      · simp at hs
      · rename_i bal _
        by_cases hr : isInt (bal + a)
        · simp only [checkedInt, if_pos hr, Option.some.injEq] at hs
          subst hs
          exact Or.inr ⟨hacc, Or.inr ⟨a, rfl⟩, bal + a, rfl⟩
        · simp [checkedInt, hr] at hs
    · simp only [Option.some.injEq] at hs
      subst hs
      exact Or.inl rfl

/-- C19: a call that reaches a state leaves the registry bound with the same
card numbers, the same PIN for every card and the same account names for every
card; every balance other than the one `account_balance_` points at is
unchanged; and the registry is unchanged altogether unless the call is a
`withdraw` or a `deposit` with an account selected. -/
theorem registry_frame (s s1 : ATMController) (b : Bank) (op : Op)
    (hb : s.bank_ = some b) (hs : step s op = some s1) :
    ∃ b1, s1.bank_ = some b1 ∧ b1.cardNumbers = b.cardNumbers ∧ b1.pins = b.pins ∧
      b1.accountNames = b.accountNames ∧
      (∀ c n, s.account_balance_ ≠ some (c, n) → b1.balanceOf c n = b.balanceOf c n) ∧
      ((∀ a, op ≠ Op.withdraw a) → (∀ a, op ≠ Op.deposit a) → b1 = b) ∧
      (s.account_exists_ = false → b1 = b) := by
  rcases step_bank s s1 op hs with h | ⟨hacc, hop, v, hv⟩
  · exact ⟨b, by rw [h, hb], rfl, rfl, rfl, fun _ _ _ => rfl, fun _ _ => rfl, fun _ => rfl⟩
  · have hopw : ¬ ((∀ a, op ≠ Op.withdraw a) ∧ ∀ a, op ≠ Op.deposit a) := by
      rintro ⟨h1, h2⟩
      rcases hop with ⟨a, ha⟩ | ⟨a, ha⟩
      · exact h1 a ha
      · exact h2 a ha
    cases hp : s.account_balance_ with
    | none =>
      have hbk : s1.bank_ = some b := by
        rw [hv]
        simp [ATMController.storeBalance, hb, hp]
      exact ⟨b, hbk, rfl, rfl, rfl, fun _ _ _ => rfl, fun _ _ => rfl, fun _ => rfl⟩
    | some p =>
      obtain ⟨c0, n0⟩ := p
      have hbk : s1.bank_ = some (b.setBalance c0 n0 v) := by
        rw [hv]
        simp [ATMController.storeBalance, hb, hp]
      refine ⟨b.setBalance c0 n0 v, hbk, Bank.cardNumbers_setBalance b c0 n0 v,
        Bank.pins_setBalance b c0 n0 v, Bank.accountNames_setBalance b c0 n0 v, ?_, ?_, ?_⟩
      · intro c n hne
        rw [Bank.balanceOf_setBalance]
        have hcn : ¬ (c = c0 ∧ n = n0) := by
          rintro ⟨h1, h2⟩
          subst h1 h2
          exact hne rfl
        simp [hcn]
      · intro h1 h2
        exact absurd ⟨h1, h2⟩ hopw
      · intro hf
        rw [hf] at hacc
        exact absurd hacc (by simp)

theorem registry_frame_witness :
    ∃ b1, (controller_test.storeBalance (150 + 50)).bank_ = some b1 ∧
      b1.cardNumbers = bank.cardNumbers ∧ b1.pins = bank.pins ∧
      b1.accountNames = bank.accountNames ∧
      (∀ c n, controller_test.account_balance_ ≠ some (c, n) →
        b1.balanceOf c n = bank.balanceOf c n) ∧
      ((∀ a, Op.deposit 50 ≠ Op.withdraw a) → (∀ a, Op.deposit 50 ≠ Op.deposit a) →
        b1 = bank) ∧
      (controller_test.account_exists_ = false → b1 = bank) :=
  registry_frame controller_test (controller_test.storeBalance (150 + 50)) bank (Op.deposit 50)
    (by decide) (by decide)

/-! ## Balances across sessions -/

theorem Bank.cardsAt_setBalance_self (b : Bank) (c : Int) (ci : CardInfo) (n : String)
    (v : Int) (hci : b.cardsAt c = some ci) :
    (b.setBalance c n v).cardsAt c = some { ci with accounts := mapSet n v ci.accounts } := by
  unfold Bank.cardsAt at hci
  simp [Bank.setBalance, Bank.cardsAt, hci, mapFind_mapSet]

/-- The calls `insertCard(c)`, `enterPin(p)`, `selectAccount(name)` with the
stored PIN of an existing card and one of its account names, from any state
bound to the registry. -/
theorem run_select (s : ATMController) (bk : Bank) (c : Int) (ci : CardInfo)
    (name : String) (v : Int) (hb : s.bank_ = some bk) (hci : bk.cardsAt c = some ci)
    (hfind : mapFind name ci.accounts = some v) :
    run s [Op.insertCard c, Op.enterPin ci.pin, Op.selectAccount name] =
      some { s with
        card_num_ := c, has_card_ := true, active_card_ := some c, pin_ := ci.pin,
        is_pin_valid_ := true, account_exists_ := true,
        account_balance_ := some (c, name) } := by
  have hex : bk.cardExists c = true := by
    unfold Bank.cardsAt at hci
    simp [Bank.cardExists, hci]
  simp [run, step, ATMController.insertCard, ATMController.enterPin,
    ATMController.selectAccount, ATMController.activeCard, Bank.isPinCorrect, hb, hex, hci,
    hfind]

/-- The balance read by `seeBalance` in a second session on the same account,
after the first session stored `v` in it and removed the card. -/
theorem run_second_session (s : ATMController) (bk : Bank) (c : Int) (ci : CardInfo)
    (name : String) (b v : Int) (hb : s.bank_ = some bk) (hci : bk.cardsAt c = some ci)
    (hfind : mapFind name ci.accounts = some b) (hp : s.account_balance_ = some (c, name)) :
    (run (s.storeBalance v)
        [Op.removeCard, Op.insertCard c, Op.enterPin ci.pin, Op.selectAccount name]).bind
      ATMController.seeBalance = some v := by
  have hci2 := Bank.cardsAt_setBalance_self bk c ci name v hci
  have hfind2 : mapFind name (mapSet name v ci.accounts) = some v := by
    simp [mapFind_mapSet, hfind]
  have hbk : (s.storeBalance v).removeCard.bank_ = some (bk.setBalance c name v) := by
    simp only [ATMController.storeBalance, hb, hp, ATMController.removeCard]
    split <;> rfl
  have hrun := run_select (s.storeBalance v).removeCard (bk.setBalance c name v) c
    { ci with accounts := mapSet name v ci.accounts } name v hbk hci2 hfind2
  have hold : bk.balanceOf c name = some b := by
    have hci3 : mapFind c bk.cards_ = some ci := hci
    simp [Bank.balanceOf, hci3, hfind]
  have hbal : (bk.setBalance c name v).balanceOf c name = some v := by
    rw [Bank.balanceOf_setBalance]
    simp [hold]
  simp only [run, step, Option.some_bind] at hrun ⊢
  rw [hrun]
  simp [ATMController.seeBalance, ATMController.balance, hbk, hbal]

theorem balance_of_pointer (s : ATMController) (bk : Bank) (c : Int) (ci : CardInfo)
    (name : String) (b : Int) (hb : s.bank_ = some bk) (hci : bk.cardsAt c = some ci)
    (hfind : mapFind name ci.accounts = some b) (hp : s.account_balance_ = some (c, name)) :
    s.balance = some b := by
  have hci3 : mapFind c bk.cards_ = some ci := hci
  simp [ATMController.balance, hb, hp, Bank.balanceOf, hci3, hfind]

theorem run_deposit_second_session (s : ATMController) (bk : Bank) (c : Int) (ci : CardInfo)
    (name : String) (b a : Int) (hb : s.bank_ = some bk) (hci : bk.cardsAt c = some ci)
    (hfind : mapFind name ci.accounts = some b) (hp : s.account_balance_ = some (c, name))
    (hacc : s.account_exists_ = true) (hr : isInt (b + a)) :
    (run s [Op.deposit a, Op.removeCard, Op.insertCard c, Op.enterPin ci.pin,
        Op.selectAccount name]).bind ATMController.seeBalance = some (b + a) := by
  have hbal := balance_of_pointer s bk c ci name b hb hci hfind hp
  have hd : s.deposit a = some (s.storeBalance (b + a)) := by
    simp [ATMController.deposit, hacc, hbal, checkedInt, hr]
  have h2 := run_second_session s bk c ci name b (b + a) hb hci hfind hp
  rw [run, step, hd, Option.some_bind]
  exact h2

theorem run_withdraw_second_session (s : ATMController) (bk : Bank) (c : Int) (ci : CardInfo)
    (name : String) (b a : Int) (hb : s.bank_ = some bk) (hci : bk.cardsAt c = some ci)
    (hfind : mapFind name ci.accounts = some b) (hp : s.account_balance_ = some (c, name))
    (hacc : s.account_exists_ = true) (hbi : isInt b) (h0 : 0 ≤ a) (hab : a ≤ b) :
    (run s [Op.withdraw a, Op.removeCard, Op.insertCard c, Op.enterPin ci.pin,
        Op.selectAccount name]).bind ATMController.seeBalance = some (b - a) := by
  have hbal := balance_of_pointer s bk c ci name b hb hci hfind hp
  have hw := ATMController.withdraw_within_balance s a 0 b hacc hbal hbi h0 hab
  have h2 := run_second_session s bk c ci name b (b - a) hb hci hfind hp
  rw [run, step, hw, Option.map_some', Option.some_bind]
  exact h2

/-- C15 (claim as stated fails): on a registry whose card 42 has PIN "0000" and
an account "main" holding 2147483647, the two-session sequence with
`deposit(1)` does not end with `seeBalance` returning 2147483648: the deposit
overflows and the sequence reaches no state. -/
theorem session_deposit_overflow :
    bankAtMax.cardsAt 42 = some { pin := "0000", accounts := [("main", 2147483647)] } ∧
      (run (ATMController.construct (some bankAtMax))
          [Op.insertCard 42, Op.enterPin "0000", Op.selectAccount "main", Op.deposit 1,
            Op.removeCard, Op.insertCard 42, Op.enterPin "0000",
            Op.selectAccount "main"]).bind ATMController.seeBalance = none ∧
      (run (ATMController.construct (some bankAtMax))
          [Op.insertCard 42, Op.enterPin "0000", Op.selectAccount "main", Op.deposit 1,
            Op.removeCard, Op.insertCard 42, Op.enterPin "0000",
            Op.selectAccount "main"]).bind ATMController.seeBalance ≠
        some (2147483647 + 1) := by
  decide

/-- C15 (amended): for a card `c` of the registry with stored PIN `ci.pin` and
an account `name` holding the `int` value `b`, and an amount `a ≥ 0`, the
sequence `insertCard(c)`, `enterPin(pin)`, `selectAccount(name)`, `deposit(a)`,
`removeCard`, `insertCard(c)`, `enterPin(pin)`, `selectAccount(name)`,
`seeBalance` from a fresh controller returns `b + a` when `b + a` does not
exceed the largest `int`, and returns `b - a` with `withdraw(a)` in place of
`deposit(a)` when `a ≤ b`. -/
theorem balance_survives_session (bk : Bank) (c : Int) (ci : CardInfo) (name : String)
    (b a : Int) (hci : bk.cardsAt c = some ci) (hfind : mapFind name ci.accounts = some b)
    (hbi : isInt b) (h0 : 0 ≤ a) :
    (b + a ≤ INT_MAX →
        (run (ATMController.construct (some bk))
            [Op.insertCard c, Op.enterPin ci.pin, Op.selectAccount name, Op.deposit a,
              Op.removeCard, Op.insertCard c, Op.enterPin ci.pin,
              Op.selectAccount name]).bind ATMController.seeBalance = some (b + a)) ∧
      (a ≤ b →
        (run (ATMController.construct (some bk))
            [Op.insertCard c, Op.enterPin ci.pin, Op.selectAccount name, Op.withdraw a,
              Op.removeCard, Op.insertCard c, Op.enterPin ci.pin,
              Op.selectAccount name]).bind ATMController.seeBalance = some (b - a)) := by
  have hsel := run_select (ATMController.construct (some bk)) bk c ci name b rfl hci hfind
  refine ⟨fun hmax => ?_, fun hab => ?_⟩
  · have hr : isInt (b + a) := by
      unfold isInt INT_MIN INT_MAX at *
      omega
    have hsplit : [Op.insertCard c, Op.enterPin ci.pin, Op.selectAccount name, Op.deposit a,
        Op.removeCard, Op.insertCard c, Op.enterPin ci.pin, Op.selectAccount name] =
        [Op.insertCard c, Op.enterPin ci.pin, Op.selectAccount name] ++
          [Op.deposit a, Op.removeCard, Op.insertCard c, Op.enterPin ci.pin,
            Op.selectAccount name] := rfl
    rw [hsplit, run_append, hsel, Option.some_bind]
    exact run_deposit_second_session _ bk c ci name b a rfl hci hfind rfl rfl hr
  · have hsplit : [Op.insertCard c, Op.enterPin ci.pin, Op.selectAccount name, Op.withdraw a,
        Op.removeCard, Op.insertCard c, Op.enterPin ci.pin, Op.selectAccount name] =
        [Op.insertCard c, Op.enterPin ci.pin, Op.selectAccount name] ++
          [Op.withdraw a, Op.removeCard, Op.insertCard c, Op.enterPin ci.pin,
            Op.selectAccount name] := rfl
    rw [hsplit, run_append, hsel, Option.some_bind]
    exact run_withdraw_second_session _ bk c ci name b a rfl hci hfind rfl rfl hbi h0 hab

theorem balance_survives_session_witness :
    ((150 : Int) + 50 ≤ INT_MAX →
        (run (ATMController.construct (some bank))
            [Op.insertCard 123123123, Op.enterPin c1.pin, Op.selectAccount "second",
              Op.deposit 50, Op.removeCard, Op.insertCard 123123123, Op.enterPin c1.pin,
              Op.selectAccount "second"]).bind ATMController.seeBalance = some (150 + 50)) ∧
      ((50 : Int) ≤ 150 →
        (run (ATMController.construct (some bank))
            [Op.insertCard 123123123, Op.enterPin c1.pin, Op.selectAccount "second",
              Op.withdraw 50, Op.removeCard, Op.insertCard 123123123, Op.enterPin c1.pin,
              Op.selectAccount "second"]).bind ATMController.seeBalance = some (150 - 50)) :=
  balance_survives_session bank 123123123 c1 "second" 150 50 (by decide) (by decide)
    (by decide) (by decide)

/-- C18 (the code at the failing input): in the session `insertCard(123123123)`,
`enterPin("1234")`, `insertCard(123456789)` on the registry of `main`, PIN-valid
is set while the bound card number is 123456789, whose PIN "9999" was never
entered: `active_card_` still points at card 123123123 and `pin_` holds "1234".
After a wrong `enterPin("0000")` PIN-valid is still set and `active_card_`
points at card 123456789, so `selectAccount("main")` and `withdraw(10000)`
empty that card's account. -/
theorem pin_valid_on_other_card :
    (bank.cardsAt 123456789).map (fun ci => ci.pin) = some "9999" ∧
      (run (ATMController.construct (some bank))
          [Op.insertCard 123123123, Op.enterPin "1234", Op.insertCard 123456789]).map
        (fun s => (s.is_pin_valid_, s.card_num_, s.active_card_, s.pin_)) =
        some (true, 123456789, some 123123123, "1234") ∧
      (run (ATMController.construct (some bank))
          [Op.insertCard 123123123, Op.enterPin "1234", Op.insertCard 123456789,
            Op.enterPin "0000"]).map
        (fun s => (s.is_pin_valid_, s.card_num_, s.active_card_, s.pin_)) =
        some (true, 123456789, some 123456789, "1234") ∧
      (run (ATMController.construct (some bank))
          [Op.insertCard 123123123, Op.enterPin "1234", Op.insertCard 123456789,
            Op.enterPin "0000", Op.selectAccount "main"]).bind ATMController.seeBalance =
        some 10000 ∧
      (run (ATMController.construct (some bank))
          [Op.insertCard 123123123, Op.enterPin "1234", Op.insertCard 123456789,
            Op.enterPin "0000", Op.selectAccount "main", Op.withdraw 10000]).map
        (fun s => (s.account_balance_, s.balance)) =
        some (some (123456789, "main"), some 0) := by
  decide

end ATM
